import Mathlib

/-! # Display Profile Manager: the profile reconciliation engine

A shallow embedding of `extension.js` (display-profile-manager@bodedejavu.github.com):
the two managers `DisplayProfileManager` (legacy, over `GnomeDesktop.RRConfig`) and
`DisplayProfileManager2` (over `org.gnome.Mutter.DisplayConfig`), with the profile
predicates, the snapshot capturer, the reconciler and the mode table resolver.

Conventions of the embedding.

* A profile is the script's array `[name, clone, output, output, ...]`; each output is
  the nine element array `[name, displayName, x, y, width, height, refreshRate,
  rotation, primary]`.  They are the records `Profile` and `OutputSetting`, so
  `profile.length` is `2 + outputs.length` and `profile[j]` for `j ≥ 2` is
  `outputs[j - 2]`.
* The result of `GetResources` is the record `Resources`; the D-Bus types `u` and `i`
  are `Nat` and `Int`, the `d` of a mode's frequency is a rational (every finite
  double is one) and `Math.round` is `mathRound`.
* A `TypeError` of the runtime (an element read off `undefined`) is the `none` of an
  `Option`.
-/

set_option autoImplicit false

/-! ## Data model -/

/-- One output of a profile: the array
`[name, displayName, x, y, width, height, refreshRate, rotation, primary]`. -/
structure OutputSetting where
  connector_name : String
  display_name : String
  x : Int
  y : Int
  width : Int
  height : Int
  refresh_rate : Int
  rotation : Int
  primary : Bool
  deriving DecidableEq, Repr

/-- A profile: the array `[name, clone, output, ...]`. -/
structure Profile where
  name : String
  clone : Bool
  outputs : List OutputSetting
  deriving DecidableEq, Repr

/-- A CRTC of `GetResources`, type `(uxiiiiiuaua{sv})`: the fields the script reads,
`[0]` id, `[2]` x, `[3]` y, `[4]` width, `[5]` height, `[6]` current mode (`-1` when the
CRTC is disabled), `[7]` current transform. -/
structure Crtc where
  id : Nat
  x : Int
  y : Int
  width : Int
  height : Int
  current_mode : Int
  current_transform : Nat
  deriving DecidableEq, Repr

/-- An output (connector) of `GetResources`, type `(uxiausauaua{sv})`: the fields the
script reads, `[0]` id, `[2]` current CRTC (`-1` when none), `[4]` connector name,
`[5]` the ids of the modes it supports, and of the properties `[7]` the two the script
unpacks, `display-name` and `primary`, which Mutter sets on every output. -/
structure Output where
  id : Nat
  current_crtc : Int
  name : String
  modes : List Nat
  display_name : String
  primary : Bool
  deriving DecidableEq, Repr

/-- A mode of `GetResources`, type `(uxuud)`: `[0]` id, `[2]` width, `[3]` height,
`[4]` frequency. -/
structure Mode where
  id : Nat
  width : Nat
  height : Nat
  frequency : ℚ
  deriving DecidableEq

/-- The state `_randrEvent` stores from `GetResources`: `serial`, `crtcs`, `outputs`,
`modes`. -/
structure Resources where
  serial : Nat
  crtcs : List Crtc
  outputs : List Output
  modes : List Mode

/-- An element of `crtcs_out`: `[id, mode, x, y, transform, [outputs], {}]`; the
properties dictionary is always empty and is the list `properties`. -/
structure CrtcUpdate where
  id : Nat
  mode : Int
  x : Int
  y : Int
  transform : Nat
  outputs : List Nat
  properties : List (String × Bool)
  deriving DecidableEq, Repr

/-- An element of `outputs_out`: `[id, properties]`, the dictionary being `{}` or
`{primary: b}`, here `[]` or `[("primary", b)]`. -/
structure OutputUpdate where
  id : Nat
  properties : List (String × Bool)
  deriving DecidableEq, Repr

/-- The four arguments `_setProfile` leaves for `ApplyConfigurationRemote`. -/
structure Configuration where
  serial_out : Nat
  persistent_out : Bool
  crtcs_out : List CrtcUpdate
  outputs_out : List OutputUpdate
  deriving DecidableEq, Repr

/-- An output of the legacy manager, a `GnomeRROutputInfo`, as its getters answer:
`get_name`, `get_display_name`, `is_connected`, `is_active`, `get_geometry`,
`get_refresh_rate`, `get_rotation`, `get_primary`. -/
structure RROutputInfo where
  name : String
  display_name : String
  connected : Bool
  active : Bool
  x : Int
  y : Int
  width : Int
  height : Int
  refresh_rate : Int
  rotation : Int
  primary : Bool
  deriving DecidableEq, Repr

/-- The runtime's `Math.round` on a finite number: the nearest integer, a tie going
up. -/
def mathRound (q : ℚ) : Int := Int.floor (q + 1 / 2)

namespace DisplayProfileManager2

/-! ## Mode table resolver -/

/-- The loop of `_getModeFromData` over `this.modes`, for the mode ids `allowed` of the
output: the id of the first mode that is allowed and has the width, height and rounded
frequency asked for, `-1` when the loop ends without one. -/
def getModeFromDataLoop (allowed : List Nat) (width height freq : Int) : List Mode → Int
  | [] => -1
  | m :: ms =>
    if allowed.contains m.id && decide ((m.width : Int) = width) &&
        decide ((m.height : Int) = height) && decide (mathRound m.frequency = freq) then
      (m.id : Int)
    else getModeFromDataLoop allowed width height freq ms

/-- The method `_getModeFromData(width, height, freq, i_output)`.  With an empty mode
table the loop body never runs and the result is `-1`; otherwise the first iteration
reads `this.outputs[i_output][5]`, a `TypeError` when there is no such output. -/
def _getModeFromData (R : Resources) (width height freq : Int) (i_output : Nat) :
    Option Int :=
  match R.modes with
  | [] => some (-1)
  | m :: ms =>
    match R.outputs[i_output]? with
    | none => none
    | some o => some (getModeFromDataLoop o.modes width height freq (m :: ms))

/-- The loop of `_getDataFromMode`: `[width, height, freq]` of the first mode with the id
`mode`, the initial `[0, 0, 0]` when the loop ends without one. -/
def getDataFromModeLoop (mode : Int) : List Mode → Int × Int × Int
  | [] => (0, 0, 0)
  | m :: ms =>
    if (m.id : Int) = mode then ((m.width : Int), (m.height : Int), mathRound m.frequency)
    else getDataFromModeLoop mode ms

/-- The method `_getDataFromMode(mode)`. -/
def _getDataFromMode (R : Resources) (mode : Int) : Int × Int × Int :=
  getDataFromModeLoop mode R.modes

/-! ## Snapshot capturer -/

/-- The loop of `_getCrtcIndex`, `i` being the index of the head of the list: the index
of the first CRTC whose id is `crtc`, `-1` when the loop ends without one. -/
def getCrtcIndexLoop (crtc : Int) : Nat → List Crtc → Int
  | _, [] => -1
  | i, c :: cs => if (c.id : Int) = crtc then (i : Int) else getCrtcIndexLoop crtc (i + 1) cs

/-- The method `_getCrtcIndex(crtc)`. -/
def _getCrtcIndex (R : Resources) (crtc : Int) : Int :=
  getCrtcIndexLoop crtc 0 R.crtcs

/-- The loop of `_getCurrentProfile` over `this.outputs`: an output whose CRTC index is
`-1` is passed over, any other pushes its nine element array, the rotation being the
literal `1`.  Reading `this.crtcs[crtc_index]` is written as a lookup. -/
def getCurrentProfileLoop (R : Resources) : List Output → Option (List OutputSetting)
  | [] => some []
  | o :: os =>
    let crtc_index := _getCrtcIndex R o.current_crtc
    if crtc_index = -1 then getCurrentProfileLoop R os
    else
      match R.crtcs[crtc_index.toNat]? with
      | none => none
      | some c =>
        let mode_data := _getDataFromMode R c.current_mode
        match getCurrentProfileLoop R os with
        | none => none
        | some rest =>
          some (⟨o.name, o.display_name, c.x, c.y, mode_data.1, mode_data.2.1, mode_data.2.2,
            1, o.primary⟩ :: rest)

/-- The method `_getCurrentProfile()`: `['Unnamed', false, output, ...]`. -/
def _getCurrentProfile (R : Resources) : Option Profile :=
  (getCurrentProfileLoop R R.outputs).map (fun outs => ⟨"Unnamed", false, outs⟩)

/-! ## Reconciler -/

/-- The inner loop of `_setProfile` for the output named `name`: it has no `break`, so
`profileIndex` ends as the last `j` with `this.outputs[i][4] == profile[j][0]`.  The
result is the output `profile[profileIndex]`, `none` standing for `-1`. -/
def profileIndexLoop (name : String) :
    Option OutputSetting → List OutputSetting → Option OutputSetting
  | acc, [] => acc
  | acc, p :: ps => profileIndexLoop name (if name = p.connector_name then some p else acc) ps

/-- One turn `i` of the outer loop of `_setProfile`: the pair pushed on `crtcs_out` and
`outputs_out`.  Both branches read `this.crtcs[i][0]`, the CRTC at the index of the
output, a `TypeError` when the CRTC list is shorter. -/
def setProfileStep (R : Resources) (profile : Profile) (i : Nat) :
    Option (CrtcUpdate × OutputUpdate) :=
  match R.outputs[i]? with
  | none => none
  | some out =>
    match profileIndexLoop out.name none profile.outputs with
    | none =>
      match R.crtcs[i]? with
      | none => none
      | some c =>
        some (⟨c.id, -1, c.x, c.y, c.current_transform, [out.id], []⟩, ⟨out.id, []⟩)
    | some p =>
      match _getModeFromData R p.width p.height p.refresh_rate i with
      | none => none
      | some newMode =>
        match R.crtcs[i]? with
        | none => none
        | some c =>
          some (⟨c.id, newMode, p.x, p.y, 0, [out.id], []⟩,
            ⟨out.id, [("primary", p.primary)]⟩)

/-- Runs the turns of a loop in order: all the results when every turn succeeds, `none`
as soon as one raises. -/
def allSome {α : Type} : List (Option α) → Option (List α)
  | [] => some []
  | none :: _ => none
  | some a :: rest =>
    match allSome rest with
    | none => none
    | some as => some (a :: as)

/-- The method `_setProfile(profile)`: the arguments handed to
`ApplyConfigurationRemote`, `none` when a turn of the loop raises (nothing is sent
then). -/
def _setProfile (R : Resources) (profile : Profile) : Option Configuration :=
  match allSome ((List.range R.outputs.length).map (setProfileStep R profile)) with
  | none => none
  | some ups => some ⟨R.serial, true, ups.map Prod.fst, ups.map Prod.snd⟩

/-! ## Profile predicates -/

/-- The UTF-16 code units of a character. -/
def utf16 (c : Char) : List Nat :=
  if c.val.toNat < 65536 then [c.val.toNat]
  else [55296 + (c.val.toNat - 65536) / 1024, 56320 + (c.val.toNat - 65536) % 1024]

/-- The UTF-16 code units of a string. -/
def codeUnits (s : String) : List Nat :=
  s.data.foldr (fun c acc => utf16 c ++ acc) []

/-- The runtime's `<` on two strings, given as code units. -/
def lexLt : List Nat → List Nat → Bool
  | [], [] => false
  | [], _ :: _ => true
  | _ :: _, [] => false
  | a :: as, b :: bs => if a < b then true else if b < a then false else lexLt as bs

/-- The string the default `sort` compares an output by: `Array.prototype.toString`,
the elements joined with commas. -/
def outputToString (o : OutputSetting) : String :=
  String.intercalate ","
    [o.connector_name, o.display_name, toString o.x, toString o.y, toString o.width,
      toString o.height, toString o.refresh_rate, toString o.rotation, toString o.primary]

/-- The order of the default `sort`: `a` may stay before `b` unless the string of `b` is
less than the string of `a`. -/
def defaultSortLe (a b : OutputSetting) : Prop :=
  lexLt (codeUnits (outputToString b)) (codeUnits (outputToString a)) = false

instance : DecidableRel defaultSortLe :=
  fun _ _ => inferInstanceAs (Decidable (lexLt _ _ = false))

/-- The call `.sort()` on a list of outputs: a stable sort by the strings of the
outputs. -/
def defaultSort (l : List OutputSetting) : List OutputSetting :=
  l.insertionSort defaultSortLe

/-- The inner loop of `_compareProfiles` over `j < 9`: no field of the two outputs
differs. -/
def outputFieldsEqual (a b : OutputSetting) : Bool :=
  decide (a.connector_name = b.connector_name) && decide (a.display_name = b.display_name) &&
  decide (a.x = b.x) && decide (a.y = b.y) && decide (a.width = b.width) &&
  decide (a.height = b.height) && decide (a.refresh_rate = b.refresh_rate) &&
  decide (a.rotation = b.rotation) && decide (a.primary = b.primary)

/-- The outer loop of `_compareProfiles` over the two sorted lists, which have the same
length when the loop is reached. -/
def compareLoop : List OutputSetting → List OutputSetting → Bool
  | [], _ => true
  | _ :: _, [] => false
  | a :: as, b :: bs => if outputFieldsEqual a b then compareLoop as bs else false

/-- The method `_compareProfiles(profileA, profileB)`. -/
def _compareProfiles (profileA profileB : Profile) : Bool :=
  if 2 + profileA.outputs.length ≠ 2 + profileB.outputs.length ∨
      profileA.clone ≠ profileB.clone then false
  else compareLoop (defaultSort profileA.outputs) (defaultSort profileB.outputs)

/-- The inner loop of `_checkProfilePossible` for one output `p` of the profile: it stops
at the first output of the topology with the connector name, `false` when the display
name differs there or no output has the name. -/
def outputFoundLoop (p : OutputSetting) : List Output → Bool
  | [] => false
  | o :: os =>
    if o.name = p.connector_name then
      if o.display_name ≠ p.display_name then false else true
    else outputFoundLoop p os

/-- The outer loop of `_checkProfilePossible` over the outputs of the profile. -/
def checkProfilePossibleLoop (outputs : List Output) : List OutputSetting → Bool
  | [] => true
  | p :: ps => if outputFoundLoop p outputs then checkProfilePossibleLoop outputs ps else false

/-- The method `_checkProfilePossible(profile)`. -/
def _checkProfilePossible (R : Resources) (profile : Profile) : Bool :=
  checkProfilePossibleLoop R.outputs profile.outputs

end DisplayProfileManager2

namespace DisplayProfileManager

/-! ## The legacy manager -/

/-- A letter that occurs in no string the runtime converts to a number: a basic Latin
letter other than the hexadecimal digits, `x`, `o` and the letters of `Infinity`. -/
def nonNumericLetter (c : Char) : Bool :=
  c.isAlpha && !("abcdefABCDEFxXoOInity".data.contains c)

/-- The sign of `a[0] - b[0]` as `sort` reads it, `a[0]` and `b[0]` being connector
names: a name with a letter that no numeric string has converts to `NaN`, the
difference is `NaN` and `sort` takes it for `0`; for two other names the sign is what
the runtime, `numericSign`, computes. -/
def nameDifference (numericSign : String → String → Int) (a b : String) : Int :=
  if a.data.any nonNumericLetter || b.data.any nonNumericLetter then 0
  else numericSign a b

/-- The order of `sort(function(a,b){return a[0]-b[0]})`: `a` may stay before `b` unless
the comparator is positive. -/
def comparatorLe (numericSign : String → String → Int) (a b : OutputSetting) : Prop :=
  nameDifference numericSign a.connector_name b.connector_name ≤ 0

instance (numericSign : String → String → Int) : DecidableRel (comparatorLe numericSign) :=
  fun _ _ => inferInstanceAs (Decidable (nameDifference numericSign _ _ ≤ 0))

/-- The call `.sort(function(a,b){return a[0]-b[0]})`: a stable sort by the
comparator. -/
def comparatorSort (numericSign : String → String → Int) (l : List OutputSetting) :
    List OutputSetting :=
  l.insertionSort (comparatorLe numericSign)

/-- The method `_compareProfiles(profileA, profileB)` of the legacy manager; the loops
over the sorted lists are those of `DisplayProfileManager2`. -/
def _compareProfiles (numericSign : String → String → Int) (profileA profileB : Profile) :
    Bool :=
  if 2 + profileA.outputs.length ≠ 2 + profileB.outputs.length ∨
      profileA.clone ≠ profileB.clone then false
  else DisplayProfileManager2.compareLoop (comparatorSort numericSign profileA.outputs)
    (comparatorSort numericSign profileB.outputs)

/-- The inner loop of `_checkProfilePossible` for one output `p` of the profile: it stops
at the first output with the connector name, `false` when that output is not connected
or its display name differs, or when no output has the name. -/
def outputFoundLoop (p : OutputSetting) : List RROutputInfo → Bool
  | [] => false
  | o :: os =>
    if o.name = p.connector_name then
      if o.connected = false ∨ o.display_name ≠ p.display_name then false else true
    else outputFoundLoop p os

/-- The outer loop of `_checkProfilePossible` over the outputs of the profile. -/
def checkProfilePossibleLoop (outputs : List RROutputInfo) : List OutputSetting → Bool
  | [] => true
  | p :: ps => if outputFoundLoop p outputs then checkProfilePossibleLoop outputs ps else false

/-- The method `_checkProfilePossible(outputs, profile)`. -/
def _checkProfilePossible (outputs : List RROutputInfo) (profile : Profile) : Bool :=
  checkProfilePossibleLoop outputs profile.outputs

/-- The first loop of `_getCurrentProfile(config, outputs)`: an output that is connected
and active pushes its nine element array, read off its getters. -/
def getCurrentProfileLoop : List RROutputInfo → List OutputSetting
  | [] => []
  | o :: os =>
    if o.connected = true ∧ o.active = true then
      ⟨o.name, o.display_name, o.x, o.y, o.width, o.height, o.refresh_rate, o.rotation,
        o.primary⟩ :: getCurrentProfileLoop os
    else getCurrentProfileLoop os

/-- The second loop of `_getCurrentProfile`: `primaryFound`, true once an output of the
profile has `[8] == true`. -/
def primaryFoundLoop : Bool → List OutputSetting → Bool
  | primaryFound, [] => primaryFound
  | primaryFound, p :: ps =>
    primaryFoundLoop (if p.primary = true then true else primaryFound) ps

/-- The method `_getCurrentProfile(config, outputs)` of the legacy manager, `clone` being
`config.get_clone()`: `['Unnamed', clone, output, ...]`.  When no output of the profile is
primary it assigns `profile[2][8] = true`, a `TypeError` when the profile has no output,
`profile[2]` being `undefined`. -/
def _getCurrentProfile (clone : Bool) (outputs : List RROutputInfo) : Option Profile :=
  let profile := getCurrentProfileLoop outputs
  if primaryFoundLoop false profile = false then
    match profile with
    | [] => none
    | p :: ps => some ⟨"Unnamed", clone, { p with primary := true } :: ps⟩
  else some ⟨"Unnamed", clone, profile⟩

end DisplayProfileManager

/-! ## The display server -/

/-- Modelled from the spec: what the display server makes of a CRTC when it applies a
configuration exactly, which is not code of the extension.  The CRTC takes the mode, x, y
and transform of the first update with its id and is unchanged without one. -/
def applyToCrtc (cfg : Configuration) (c : Crtc) : Crtc :=
  match cfg.crtcs_out.find? (fun u => decide (u.id = c.id)) with
  | some u =>
    { c with current_mode := u.mode, x := u.x, y := u.y, current_transform := u.transform }
  | none => c

/-- Modelled from the spec: what the display server makes of an output when it applies a
configuration exactly.  The output is driven by the CRTC of the first update that lists
it with a mode other than `-1`, and by no CRTC when there is no such update; it takes the
primary flag of the first output update with its id, false when that update has no such
property. -/
def applyToOutput (cfg : Configuration) (o : Output) : Output :=
  { o with
    current_crtc :=
      match cfg.crtcs_out.find? (fun u => u.outputs.contains o.id && decide (u.mode ≠ -1)) with
      | some u => (u.id : Int)
      | none => -1
    primary :=
      match cfg.outputs_out.find? (fun u => decide (u.id = o.id)) with
      | some u => (u.properties.lookup "primary").getD false
      | none => o.primary }

/-- Modelled from the spec: the topology after the display server has applied a
configuration exactly.  The mode table is unchanged and the serial is the next one. -/
def applyConfiguration (R : Resources) (cfg : Configuration) : Resources :=
  { serial := R.serial + 1
    crtcs := R.crtcs.map (applyToCrtc cfg)
    outputs := R.outputs.map (applyToOutput cfg)
    modes := R.modes }

/-! ## Example topologies and profiles -/

/-- Three modes: 1920x1080 at 59.95 Hz and at 60 Hz, and 1280x720 at 60 Hz. -/
def exampleModes : List Mode :=
  [⟨70, 1280, 720, 60⟩, ⟨71, 1920, 1080, 5995 / 100⟩, ⟨72, 1920, 1080, 60⟩]

/-- The topology of the scenario: `HDMI-1` ("Acme 24") and `eDP-1` ("Laptop"), two
CRTCs, `eDP-1` driven by the first and `HDMI-1` by none. -/
def dockedResources : Resources :=
  { serial := 7
    crtcs := [⟨50, 0, 0, 1920, 1080, 72, 0⟩, ⟨51, 0, 0, 0, 0, -1, 0⟩]
    outputs := [⟨10, -1, "HDMI-1", [70, 71, 72], "Acme 24", false⟩,
      ⟨11, 50, "eDP-1", [70, 72], "Laptop", true⟩]
    modes := exampleModes }

/-- The profile "Docked": only `HDMI-1`, 1920x1080 at 60 Hz, primary. -/
def dockedProfile : Profile :=
  ⟨"Docked", false, [⟨"HDMI-1", "Acme 24", 0, 0, 1920, 1080, 60, 1, true⟩]⟩

/-- A mode table with one degenerate mode, 0x0 at 0 Hz, of id 1. -/
def degenerateResources : Resources :=
  { serial := 1, crtcs := [], outputs := [], modes := [⟨1, 0, 0, 0⟩] }

/-- A topology whose only output names as its current CRTC a CRTC that is disabled. -/
def disabledCrtcResources : Resources :=
  { serial := 3
    crtcs := [⟨50, 0, 0, 0, 0, -1, 0⟩]
    outputs := [⟨10, 50, "HDMI-1", [70, 71, 72], "Acme 24", true⟩]
    modes := exampleModes }

/-- A topology with three connected outputs and two CRTCs: `HDMI-1`, `eDP-1` and
`VGA-1`, the first two driven. -/
def threeOutputResources : Resources :=
  { serial := 9
    crtcs := [⟨50, 0, 0, 1920, 1080, 72, 0⟩, ⟨51, 1920, 0, 1920, 1080, 72, 0⟩]
    outputs := [⟨10, 51, "HDMI-1", [70, 71, 72], "Acme 24", false⟩,
      ⟨11, 50, "eDP-1", [70, 72], "Laptop", true⟩,
      ⟨12, -1, "VGA-1", [70], "Beamer", false⟩]
    modes := exampleModes }

/-- A profile asking `HDMI-1` for 2560x1440 at 75 Hz, at the position (1920, 0). -/
def unavailableProfile : Profile :=
  ⟨"Wide", false, [⟨"HDMI-1", "Acme 24", 1920, 0, 2560, 1440, 75, 1, true⟩]⟩

/-- The scenario topology as the legacy manager reads it: `HDMI-1` ("Acme 24") and
`eDP-1` ("Laptop"), both connected, `eDP-1` active. -/
def dockedOutputs : List RROutputInfo :=
  [⟨"HDMI-1", "Acme 24", true, false, 0, 0, 1920, 1080, 60, 1, false⟩,
    ⟨"eDP-1", "Laptop", true, true, 0, 0, 1920, 1080, 60, 1, true⟩]

/-- The profile "Missing": only `DP-1`, which the scenario topology does not have. -/
def missingProfile : Profile :=
  ⟨"Missing", false, [⟨"DP-1", "Acme 24", 0, 0, 1920, 1080, 60, 1, true⟩]⟩

/-- A topology in which two outputs bear the connector name `HDMI-1`, the second one with
the display name "Acme 24". -/
def duplicateNameResources : Resources :=
  { serial := 4
    crtcs := [⟨50, 0, 0, 0, 0, -1, 0⟩, ⟨51, 0, 0, 0, 0, -1, 0⟩]
    outputs := [⟨10, -1, "HDMI-1", [70, 71, 72], "Other", false⟩,
      ⟨11, -1, "HDMI-1", [70, 71, 72], "Acme 24", false⟩]
    modes := exampleModes }

/-- The same two outputs as the legacy manager reads them, both connected. -/
def duplicateNameOutputs : List RROutputInfo :=
  [⟨"HDMI-1", "Other", true, false, 0, 0, 1920, 1080, 60, 1, false⟩,
    ⟨"HDMI-1", "Acme 24", true, false, 0, 0, 1920, 1080, 60, 1, false⟩]

/-- A profile of two outputs, `HDMI-1` left of `eDP-1`. -/
def extendedProfile : Profile :=
  ⟨"Extended", false, [⟨"HDMI-1", "Acme 24", 0, 0, 1920, 1080, 60, 1, true⟩,
    ⟨"eDP-1", "Laptop", 1920, 0, 1920, 1080, 60, 1, false⟩]⟩

/-- The profile `extendedProfile` with its two outputs in the other order, under another
name. -/
def extendedProfileReversed : Profile :=
  ⟨"Unnamed", false, [⟨"eDP-1", "Laptop", 1920, 0, 1920, 1080, 60, 1, false⟩,
    ⟨"HDMI-1", "Acme 24", 0, 0, 1920, 1080, 60, 1, true⟩]⟩

/-- A profile of two outputs whose strings coincide: the connector name `a,b` with the
display name `c`, and the connector name `a` with the display name `b,c`. -/
def commaProfile : Profile :=
  ⟨"Comma", false, [⟨"a,b", "c", 0, 0, 1920, 1080, 60, 1, true⟩,
    ⟨"a", "b,c", 0, 0, 1920, 1080, 60, 1, true⟩]⟩

/-- The profile `commaProfile` with its two outputs in the other order. -/
def commaProfileReversed : Profile :=
  ⟨"Comma", false, [⟨"a", "b,c", 0, 0, 1920, 1080, 60, 1, true⟩,
    ⟨"a,b", "c", 0, 0, 1920, 1080, 60, 1, true⟩]⟩

/-- A topology whose only driven output, `eDP-1`, does not report itself primary. -/
def noPrimaryResources : Resources :=
  { serial := 5
    crtcs := [⟨50, 0, 0, 1920, 1080, 72, 0⟩, ⟨51, 0, 0, 0, 0, -1, 0⟩]
    outputs := [⟨10, -1, "HDMI-1", [70, 71, 72], "Acme 24", false⟩,
      ⟨11, 50, "eDP-1", [70, 72], "Laptop", false⟩]
    modes := exampleModes }

/-- The same state as the legacy manager reads it: `eDP-1` active and not primary. -/
def noPrimaryOutputs : List RROutputInfo :=
  [⟨"HDMI-1", "Acme 24", true, false, 0, 0, 1920, 1080, 60, 1, false⟩,
    ⟨"eDP-1", "Laptop", true, true, 0, 0, 1920, 1080, 60, 1, false⟩]

/-- A state of the legacy manager with no active output: `HDMI-1` connected and switched
off, `VGA-1` not connected. -/
def inactiveOutputs : List RROutputInfo :=
  [⟨"HDMI-1", "Acme 24", true, false, 0, 0, 1920, 1080, 60, 1, false⟩,
    ⟨"VGA-1", "", false, false, 0, 0, 0, 0, 0, 1, false⟩]

/-- The profile "Docked" with `HDMI-1` turned by a quarter, rotation 2. -/
def rotatedProfile : Profile :=
  ⟨"Rotated", false, [⟨"HDMI-1", "Acme 24", 0, 0, 1920, 1080, 60, 2, true⟩]⟩


/-! ## Mode table resolver: theorems -/

namespace DisplayProfileManager2

theorem getModeFromDataLoop_eq_find (allowed : List Nat) (width height freq : Int)
    (modes : List Mode) :
    getModeFromDataLoop allowed width height freq modes =
      match modes.find? (fun m => decide (m.id ∈ allowed ∧ (m.width : Int) = width ∧
          (m.height : Int) = height ∧ mathRound m.frequency = freq)) with
      | some m => (m.id : Int)
      | none => -1 := by
  induction modes with
  | nil => rfl
  | cons m ms ih =>
    have hc : (allowed.contains m.id && decide ((m.width : Int) = width) &&
        decide ((m.height : Int) = height) && decide (mathRound m.frequency = freq)) =
        decide (m.id ∈ allowed ∧ (m.width : Int) = width ∧ (m.height : Int) = height ∧
          mathRound m.frequency = freq) := by
      simp [Bool.and_assoc]
    rw [getModeFromDataLoop, hc, List.find?_cons]
    by_cases h : m.id ∈ allowed ∧ (m.width : Int) = width ∧ (m.height : Int) = height ∧
        mathRound m.frequency = freq
    · rw [decide_eq_true h]; rfl
    · rw [decide_eq_false h]; simpa using ih

theorem getModeFromDataLoop_eq_neg_one_iff (allowed : List Nat) (width height freq : Int)
    (modes : List Mode) :
    getModeFromDataLoop allowed width height freq modes = -1 ↔
      ∀ m ∈ modes, ¬ (m.id ∈ allowed ∧ (m.width : Int) = width ∧ (m.height : Int) = height ∧
        mathRound m.frequency = freq) := by
  induction modes with
  | nil => simp [getModeFromDataLoop]
  | cons m ms ih =>
    have hc : (allowed.contains m.id && decide ((m.width : Int) = width) &&
        decide ((m.height : Int) = height) && decide (mathRound m.frequency = freq)) =
        decide (m.id ∈ allowed ∧ (m.width : Int) = width ∧ (m.height : Int) = height ∧
          mathRound m.frequency = freq) := by
      simp [Bool.and_assoc]
    rw [getModeFromDataLoop, hc, List.forall_mem_cons]
    by_cases h : m.id ∈ allowed ∧ (m.width : Int) = width ∧ (m.height : Int) = height ∧
        mathRound m.frequency = freq
    · rw [decide_eq_true h]
      simp only [if_true]
      constructor
      · intro h1; omega
      · intro h1; exact absurd h h1.1
    · rw [decide_eq_false h]
      simp only [Bool.false_eq_true, if_false, ih]
      exact ⟨fun h1 => ⟨h, h1⟩, fun h1 => h1.2⟩

theorem getModeFromData_of_output (R : Resources) (width height freq : Int) (i : Nat)
    (o : Output) (ho : R.outputs[i]? = some o) :
    _getModeFromData R width height freq i =
      some (getModeFromDataLoop o.modes width height freq R.modes) := by
  unfold _getModeFromData
  cases hm : R.modes with
  | nil => rfl
  | cons m ms => simp [ho]

/-- C8. `find_mode` (`_getModeFromData`), for an output `i` of the topology with the
allowed mode ids `o.modes`, returns the id of the first mode in table order whose id is
allowed and whose width, height and rounded refresh rate are the ones asked for, and it
returns `-1` exactly when the table has no such mode. -/
theorem getModeFromData_first_match (R : Resources) (width height freq : Int) (i : Nat)
    (o : Output) (ho : R.outputs[i]? = some o) :
    _getModeFromData R width height freq i =
        some (match R.modes.find? (fun m => decide (m.id ∈ o.modes ∧ (m.width : Int) = width ∧
            (m.height : Int) = height ∧ mathRound m.frequency = freq)) with
          | some m => (m.id : Int)
          | none => -1) ∧
      (_getModeFromData R width height freq i = some (-1) ↔
        ∀ m ∈ R.modes, ¬ (m.id ∈ o.modes ∧ (m.width : Int) = width ∧
          (m.height : Int) = height ∧ mathRound m.frequency = freq)) := by
  rw [getModeFromData_of_output R width height freq i o ho]
  refine ⟨congrArg some (getModeFromDataLoop_eq_find _ _ _ _ _), ?_⟩
  rw [Option.some_inj]
  exact getModeFromDataLoop_eq_neg_one_iff _ _ _ _ _

/-- For `HDMI-1` of the scenario topology, 1920x1080 at 60 Hz resolves to the mode 71, the
first of the two modes of that size and rounded rate, and 2560x1440 at 75 Hz to `-1`. -/
theorem getModeFromData_first_match_witness :
    dockedResources.outputs[0]? = some ⟨10, -1, "HDMI-1", [70, 71, 72], "Acme 24", false⟩ ∧
      _getModeFromData dockedResources 1920 1080 60 0 = some 71 ∧
      _getModeFromData dockedResources 2560 1440 75 0 = some (-1) :=
  ⟨by decide,
    (getModeFromData_first_match dockedResources 1920 1080 60 0
      ⟨10, -1, "HDMI-1", [70, 71, 72], "Acme 24", false⟩ (by decide)).1.trans (by decide!),
    (getModeFromData_first_match dockedResources 2560 1440 75 0
      ⟨10, -1, "HDMI-1", [70, 71, 72], "Acme 24", false⟩ (by decide)).1.trans (by decide!)⟩

theorem getDataFromModeLoop_eq_find (mode : Int) (modes : List Mode) :
    getDataFromModeLoop mode modes =
      match modes.find? (fun m => decide ((m.id : Int) = mode)) with
      | some m => ((m.width : Int), (m.height : Int), mathRound m.frequency)
      | none => (0, 0, 0) := by
  induction modes with
  | nil => rfl
  | cons m ms ih =>
    rw [getDataFromModeLoop, List.find?_cons]
    by_cases h : (m.id : Int) = mode
    · rw [if_pos h, decide_eq_true h]
    · rw [if_neg h, decide_eq_false h]; simpa using ih

/-- C9, as stated, fails: in a table whose only mode, of id 1, is 0x0 at 0 Hz, no mode has
the id 2 and yet `decode_mode` returns for the id 2 the very triple it decodes for the
mode of id 1. -/
theorem getDataFromMode_not_found_not_distinct :
    (∀ m ∈ degenerateResources.modes, (m.id : Int) ≠ 2) ∧
      _getDataFromMode degenerateResources 2 = _getDataFromMode degenerateResources 1 := by
  decide!

/-- C9, amended. `decode_mode` (`_getDataFromMode`) never raises; it returns the width,
height and rounded refresh rate of the first mode in the table with the id asked for,
and the triple `(0, 0, 0)` when no mode of the table has that id, a result that differs
from the triple of every mode of the table whose width, height or rounded refresh rate
is not zero. -/
theorem getDataFromMode_spec (R : Resources) (mode : Int) :
    _getDataFromMode R mode =
        (match R.modes.find? (fun m => decide ((m.id : Int) = mode)) with
          | some m => ((m.width : Int), (m.height : Int), mathRound m.frequency)
          | none => (0, 0, 0)) ∧
      ((∀ m ∈ R.modes, (m.id : Int) ≠ mode) →
        _getDataFromMode R mode = (0, 0, 0) ∧
        ∀ m ∈ R.modes, (m.width ≠ 0 ∨ m.height ≠ 0 ∨ mathRound m.frequency ≠ 0) →
          _getDataFromMode R mode ≠ ((m.width : Int), (m.height : Int), mathRound m.frequency)) := by
  have h1 := getDataFromModeLoop_eq_find mode R.modes
  refine ⟨h1, fun hno => ?_⟩
  have hnone : R.modes.find? (fun m => decide ((m.id : Int) = mode)) = none := by
    rw [List.find?_eq_none]
    intro m hm
    simpa using hno m hm
  have h0 : _getDataFromMode R mode = (0, 0, 0) := by
    rw [_getDataFromMode, h1, hnone]
  refine ⟨h0, fun m _ hnz heq => ?_⟩
  rw [h0] at heq
  simp only [Prod.mk.injEq] at heq
  obtain ⟨hw, hh, hf⟩ := heq
  rcases hnz with h | h | h
  · exact h (by exact_mod_cast hw.symm)
  · exact h (by exact_mod_cast hh.symm)
  · exact h hf.symm

/-- In the example table the id `-1` decodes to `(0, 0, 0)` and the mode 71, of 59.95 Hz,
to 1920x1080 at 60 Hz. -/
theorem getDataFromMode_spec_witness :
    (∀ m ∈ dockedResources.modes, (m.id : Int) ≠ -1) ∧
      _getDataFromMode dockedResources (-1) = (0, 0, 0) ∧
      _getDataFromMode dockedResources 71 = (1920, 1080, 60) :=
  ⟨by decide,
    ((getDataFromMode_spec dockedResources (-1)).2 (by decide)).1,
    (getDataFromMode_spec dockedResources 71).1.trans (by decide!)⟩

/-! ## Snapshot capturer: theorems -/

theorem getCrtcIndexLoop_spec (crtc : Int) (cs : List Crtc) (i : Nat) :
    match cs.find? (fun c => decide ((c.id : Int) = crtc)) with
    | none => getCrtcIndexLoop crtc i cs = -1
    | some c => ∃ k : Nat, getCrtcIndexLoop crtc i cs = ((i + k : Nat) : Int) ∧ cs[k]? = some c := by
  induction cs generalizing i with
  | nil => simp [getCrtcIndexLoop]
  | cons c cs ih =>
    rw [List.find?_cons, getCrtcIndexLoop]
    by_cases h : (c.id : Int) = crtc
    · rw [decide_eq_true h, if_pos h]
      exact ⟨0, by simp, by simp⟩
    · rw [decide_eq_false h, if_neg h]
      have := ih (i + 1)
      cases hf : cs.find? (fun c => decide ((c.id : Int) = crtc)) with
      | none => rw [hf] at this; simpa using this
      | some c' =>
        rw [hf] at this
        obtain ⟨k, hk1, hk2⟩ := this
        refine ⟨k + 1, ?_, by simpa using hk2⟩
        rw [hk1]; congr 1; omega

theorem getCurrentProfileLoop_eq (R : Resources) (os : List Output) :
    getCurrentProfileLoop R os =
      some (os.filterMap (fun o =>
        (R.crtcs.find? (fun c => decide ((c.id : Int) = o.current_crtc))).map (fun c =>
          (⟨o.name, o.display_name, c.x, c.y, (_getDataFromMode R c.current_mode).1,
            (_getDataFromMode R c.current_mode).2.1, (_getDataFromMode R c.current_mode).2.2,
            1, o.primary⟩ : OutputSetting)))) := by
  induction os with
  | nil => rfl
  | cons o os ih =>
    have hs := getCrtcIndexLoop_spec o.current_crtc R.crtcs 0
    rw [getCurrentProfileLoop, ih, List.filterMap_cons]
    cases hf : R.crtcs.find? (fun c => decide ((c.id : Int) = o.current_crtc)) with
    | none =>
      rw [hf] at hs
      simp [_getCrtcIndex, hs]
    | some c =>
      rw [hf] at hs
      obtain ⟨k, hk1, hk2⟩ := hs
      have hne : _getCrtcIndex R o.current_crtc ≠ -1 := by
        rw [_getCrtcIndex, hk1]; omega
      have hk : (_getCrtcIndex R o.current_crtc).toNat = k := by
        rw [_getCrtcIndex, hk1]; simp
      simp [hne, hk, hk2]

/-- C10, as stated, fails: here the only CRTC is disabled (its current mode is `-1`) and
the only output names it as its current CRTC, so no output is driven by an enabled CRTC,
and `capture` still emits an output setting for it, of size 0x0 at 0 Hz. -/
theorem getCurrentProfile_emits_for_disabled_crtc :
    (∀ o ∈ disabledCrtcResources.outputs, ∀ c ∈ disabledCrtcResources.crtcs,
        (c.id : Int) = o.current_crtc → c.current_mode = -1) ∧
      _getCurrentProfile disabledCrtcResources =
        some ⟨"Unnamed", false, [⟨"HDMI-1", "Acme 24", 0, 0, 0, 0, 0, 1, true⟩]⟩ := by
  decide!

/-- C10, amended. For every topology `capture` (`_getCurrentProfile`) returns, without
raising, a profile named "Unnamed" with clone false whose outputs are, in topology order,
exactly one output setting for each output whose current CRTC is the id of a CRTC of the
topology, enabled or not, and none for any other output; each setting carries the
output's name, display name and primary flag, the x and y of the first CRTC with that id,
the width, height and rounded refresh rate that `decode_mode` gives for that CRTC's
current mode (`(0, 0, 0)` when the table has no such mode), and the rotation 1. -/
theorem getCurrentProfile_spec (R : Resources) :
    _getCurrentProfile R =
      some ⟨"Unnamed", false, R.outputs.filterMap (fun o =>
        (R.crtcs.find? (fun c => decide ((c.id : Int) = o.current_crtc))).map (fun c =>
          (⟨o.name, o.display_name, c.x, c.y, (_getDataFromMode R c.current_mode).1,
            (_getDataFromMode R c.current_mode).2.1, (_getDataFromMode R c.current_mode).2.2,
            1, o.primary⟩ : OutputSetting)))⟩ := by
  rw [_getCurrentProfile, getCurrentProfileLoop_eq]
  rfl

/-! ## Reconciler: theorems -/

theorem allSome_eq_some_iff {α : Type} (l : List (Option α)) (r : List α) :
    allSome l = some r ↔ l = r.map some := by
  induction l generalizing r with
  | nil => cases r <;> simp [allSome]
  | cons a l ih =>
    cases a with
    | none => cases r <;> simp [allSome]
    | some a =>
      cases hl : allSome l with
      | none =>
        have hn : ∀ r' : List α, l ≠ r'.map some := fun r' h => by
          rw [← ih r', hl] at h; cases h
        cases r with
        | nil => simp [allSome, hl]
        | cons b r =>
          simp only [allSome, hl, List.map_cons, List.cons.injEq, false_iff, reduceCtorEq]
          exact fun h => hn r h.2
      | some as =>
        have has : l = as.map some := (ih as).1 hl
        cases r with
        | nil => simp [allSome, hl]
        | cons b r =>
          simp only [allSome, hl, Option.some.injEq, List.cons.injEq, List.map_cons]
          constructor
          · rintro ⟨h1, h2⟩; exact ⟨h1, h2 ▸ has⟩
          · rintro ⟨h1, h2⟩
            refine ⟨h1, ?_⟩
            have : allSome l = some r := (ih r).2 h2
            rw [hl] at this; exact Option.some.inj this

theorem allSome_eq_none_iff {α : Type} (l : List (Option α)) :
    allSome l = none ↔ none ∈ l := by
  induction l with
  | nil => simp [allSome]
  | cons a l ih =>
    cases a with
    | none => simp [allSome]
    | some a =>
      cases hl : allSome l with
      | none => simp [allSome, hl, ih.1 hl]
      | some as =>
        have : none ∉ l := fun h => by rw [ih.2 h] at hl; cases hl
        simp [allSome, hl, this]

theorem profileIndexLoop_of_no_match (name : String) (acc : Option OutputSetting)
    (ps : List OutputSetting) (h : ∀ t ∈ ps, t.connector_name ≠ name) :
    profileIndexLoop name acc ps = acc := by
  induction ps generalizing acc with
  | nil => rfl
  | cons p ps ih =>
    rw [List.forall_mem_cons] at h
    rw [profileIndexLoop, if_neg (fun e => h.1 e.symm), ih acc h.2]

theorem profileIndexLoop_append (name : String) (acc : Option OutputSetting)
    (ps qs : List OutputSetting) :
    profileIndexLoop name acc (ps ++ qs) =
      profileIndexLoop name (profileIndexLoop name acc ps) qs := by
  induction ps generalizing acc with
  | nil => rfl
  | cons p ps ih =>
    rw [List.cons_append, profileIndexLoop, profileIndexLoop, ih]

theorem profileIndexLoop_last (name : String) (acc : Option OutputSetting)
    (pre post : List OutputSetting) (s : OutputSetting) (hs : s.connector_name = name)
    (hpost : ∀ t ∈ post, t.connector_name ≠ name) :
    profileIndexLoop name acc (pre ++ s :: post) = some s := by
  rw [profileIndexLoop_append, profileIndexLoop, if_pos hs.symm,
    profileIndexLoop_of_no_match name _ post hpost]

theorem profileIndexLoop_of_nodup (name : String) (ps : List OutputSetting) (s : OutputSetting)
    (hnd : (ps.map OutputSetting.connector_name).Nodup) (hmem : s ∈ ps)
    (hs : s.connector_name = name) :
    profileIndexLoop name none ps = some s := by
  obtain ⟨pre, post, rfl⟩ := List.append_of_mem hmem
  refine profileIndexLoop_last name none pre post s hs (fun t ht e => ?_)
  rw [List.map_append, List.map_cons] at hnd
  have h2 := (List.nodup_append.1 hnd).2.1
  rw [List.nodup_cons] at h2
  exact h2.1 (List.mem_map.2 ⟨t, ht, by rw [e, hs]⟩)

theorem setProfileStep_of_absent (R : Resources) (profile : Profile) (i : Nat) (o : Output)
    (c : Crtc) (ho : R.outputs[i]? = some o) (hc : R.crtcs[i]? = some c)
    (hp : profileIndexLoop o.name none profile.outputs = none) :
    setProfileStep R profile i =
      some (⟨c.id, -1, c.x, c.y, c.current_transform, [o.id], []⟩, ⟨o.id, []⟩) := by
  simp [setProfileStep, ho, hc, hp]

theorem setProfileStep_of_present (R : Resources) (profile : Profile) (i : Nat) (o : Output)
    (c : Crtc) (s : OutputSetting) (ho : R.outputs[i]? = some o) (hc : R.crtcs[i]? = some c)
    (hp : profileIndexLoop o.name none profile.outputs = some s) :
    setProfileStep R profile i =
      some (⟨c.id, getModeFromDataLoop o.modes s.width s.height s.refresh_rate R.modes,
          s.x, s.y, 0, [o.id], []⟩, ⟨o.id, [("primary", s.primary)]⟩) := by
  simp [setProfileStep, ho, hc, hp, getModeFromData_of_output R _ _ _ i o ho]

theorem setProfileStep_of_no_crtc (R : Resources) (profile : Profile) (i : Nat)
    (hc : R.crtcs[i]? = none) : setProfileStep R profile i = none := by
  unfold setProfileStep
  cases ho : R.outputs[i]? with
  | none => rfl
  | some o =>
    cases hp : profileIndexLoop o.name none profile.outputs with
    | none => simp [hc, hp]
    | some s => simp [hc, hp, getModeFromData_of_output R _ _ _ i o ho]

theorem setProfileStep_isSome (R : Resources) (profile : Profile) (i : Nat)
    (ho : i < R.outputs.length) (hc : i < R.crtcs.length) :
    ∃ u, setProfileStep R profile i = some u := by
  have ho' : R.outputs[i]? = some R.outputs[i] := List.getElem?_eq_getElem ho
  have hc' : R.crtcs[i]? = some R.crtcs[i] := List.getElem?_eq_getElem hc
  cases hp : profileIndexLoop R.outputs[i].name none profile.outputs with
  | none => exact ⟨_, setProfileStep_of_absent R profile i _ _ ho' hc' hp⟩
  | some s => exact ⟨_, setProfileStep_of_present R profile i _ _ s ho' hc' hp⟩

/-- The loop of `_setProfile` raises exactly when the topology has fewer CRTCs than
outputs. -/
theorem setProfile_eq_none_iff (R : Resources) (profile : Profile) :
    _setProfile R profile = none ↔ R.crtcs.length < R.outputs.length := by
  have key : allSome ((List.range R.outputs.length).map (setProfileStep R profile)) = none ↔
      R.crtcs.length < R.outputs.length := by
    rw [allSome_eq_none_iff, List.mem_map]
    constructor
    · rintro ⟨i, hi, hn⟩
      rw [List.mem_range] at hi
      by_contra hlt
      obtain ⟨u, hu⟩ := setProfileStep_isSome R profile i hi (by omega)
      rw [hu] at hn; cases hn
    · intro hlt
      exact ⟨R.crtcs.length, List.mem_range.2 hlt,
        setProfileStep_of_no_crtc R profile _ (List.getElem?_eq_none (le_refl _))⟩
  unfold _setProfile
  cases h : allSome ((List.range R.outputs.length).map (setProfileStep R profile)) with
  | none => simpa using key.1 h
  | some ups =>
    simp only [false_iff, reduceCtorEq]
    intro hlt
    rw [key.2 hlt] at h; cases h

/-- With at least as many CRTCs as outputs `_setProfile` completes, with the serial of the
topology and `persistent` true, and the two lists it builds have one element for each
output, in topology order, the pair at index `i` being the one turn `i` pushes. -/
theorem setProfile_of_enough_crtcs (R : Resources) (profile : Profile)
    (hlen : R.outputs.length ≤ R.crtcs.length) :
    ∃ cfg, _setProfile R profile = some cfg ∧ cfg.serial_out = R.serial ∧
      cfg.persistent_out = true ∧ cfg.crtcs_out.length = R.outputs.length ∧
      cfg.outputs_out.length = R.outputs.length ∧
      ∀ i, i < R.outputs.length → ∃ cu ou, setProfileStep R profile i = some (cu, ou) ∧
        cfg.crtcs_out[i]? = some cu ∧ cfg.outputs_out[i]? = some ou := by
  cases h : allSome ((List.range R.outputs.length).map (setProfileStep R profile)) with
  | none =>
    have : _setProfile R profile = none := by simp [_setProfile, h]
    rw [setProfile_eq_none_iff] at this
    omega
  | some ups =>
    have hmap := (allSome_eq_some_iff _ _).1 h
    have hl : ups.length = R.outputs.length := by
      have := congrArg List.length hmap
      simpa using this.symm
    refine ⟨⟨R.serial, true, ups.map Prod.fst, ups.map Prod.snd⟩, by simp [_setProfile, h],
      rfl, rfl, by simp [hl], by simp [hl], fun i hi => ?_⟩
    have hi' : i < ups.length := by omega
    have hget := congrArg (fun l => l[i]?) hmap
    simp only [List.getElem?_map, List.getElem?_range hi, Option.map_some',
      List.getElem?_eq_getElem hi'] at hget
    refine ⟨ups[i].1, ups[i].2, Option.some.inj hget, ?_, ?_⟩ <;>
      simp [List.getElem?_map, List.getElem?_eq_getElem hi']

/-- C1, as stated, fails: in the scenario topology `eDP-1` (id 11) is named by no output
setting of "Docked" and its current CRTC is the CRTC 50, yet no CRTC update has the id 50
with the mode `-1` and the output list `[11]`: the CRTC 50 is given to `HDMI-1`, the first
output, and the update that lists `eDP-1` disables the CRTC 51, the second CRTC. -/
theorem setProfile_disables_crtc_at_index_not_current :
    (∀ s ∈ dockedProfile.outputs, s.connector_name ≠ "eDP-1") ∧
      dockedResources.outputs[1]? = some ⟨11, 50, "eDP-1", [70, 72], "Laptop", true⟩ ∧
      ∃ cfg, _setProfile dockedResources dockedProfile = some cfg ∧
        cfg.crtcs_out = [⟨50, 71, 0, 0, 0, [10], []⟩, ⟨51, -1, 0, 0, 0, [11], []⟩] ∧
        ¬ ∃ u ∈ cfg.crtcs_out, (u.id : Int) = 50 ∧ u.mode = -1 ∧ u.outputs = [11] :=
  ⟨by decide, by decide,
    ⟨7, true, [⟨50, 71, 0, 0, 0, [10], []⟩, ⟨51, -1, 0, 0, 0, [11], []⟩],
      [⟨10, [("primary", true)]⟩, ⟨11, []⟩]⟩, by decide!, rfl, by decide⟩

/-- C1, amended. For every target profile and every topology with at least as many CRTCs
as outputs, `build_configuration` (`_setProfile`) completes and, for each output of the
topology whose connector name matches no output setting of the profile, `crtcs_out` holds
at the index of the output an update whose CRTC id is the id of the CRTC at that same
index of the topology (not the output's current CRTC), whose mode is `-1`, whose x, y and
transform are those of that CRTC and whose output list is the id of the output, and
`outputs_out` holds at that index the id of the output with no properties. -/
theorem setProfile_unnamed_output_disabled (R : Resources) (profile : Profile)
    (hlen : R.outputs.length ≤ R.crtcs.length) :
    ∃ cfg, _setProfile R profile = some cfg ∧
      ∀ (i : Nat) (o : Output) (c : Crtc), R.outputs[i]? = some o → R.crtcs[i]? = some c →
        (∀ s ∈ profile.outputs, s.connector_name ≠ o.name) →
        cfg.crtcs_out[i]? = some ⟨c.id, -1, c.x, c.y, c.current_transform, [o.id], []⟩ ∧
          cfg.outputs_out[i]? = some ⟨o.id, []⟩ := by
  obtain ⟨cfg, hcfg, -, -, -, -, hstep⟩ := setProfile_of_enough_crtcs R profile hlen
  refine ⟨cfg, hcfg, fun i o c ho hc hno => ?_⟩
  have hi : i < R.outputs.length := (List.getElem?_eq_some_iff.1 ho).1
  obtain ⟨cu, ou, hs, hcu, hou⟩ := hstep i hi
  rw [setProfileStep_of_absent R profile i o c ho hc
    (profileIndexLoop_of_no_match o.name none profile.outputs hno)] at hs
  simp only [Option.some.injEq, Prod.mk.injEq] at hs
  rw [hcu, hou, ← hs.1, ← hs.2]
  exact ⟨rfl, rfl⟩

/-- In the scenario `eDP-1`, the second output, is not named by "Docked": the second CRTC,
of id 51, is disabled for it. -/
theorem setProfile_unnamed_output_disabled_witness :
    dockedResources.outputs.length ≤ dockedResources.crtcs.length ∧
      ∃ cfg, _setProfile dockedResources dockedProfile = some cfg ∧
        cfg.crtcs_out[1]? = some ⟨51, -1, 0, 0, 0, [11], []⟩ ∧
        cfg.outputs_out[1]? = some ⟨11, []⟩ := by
  refine ⟨by decide, ?_⟩
  obtain ⟨cfg, hcfg, h⟩ :=
    setProfile_unnamed_output_disabled dockedResources dockedProfile (by decide)
  exact ⟨cfg, hcfg, h 1 ⟨11, 50, "eDP-1", [70, 72], "Laptop", true⟩ ⟨51, 0, 0, 0, 0, -1, 0⟩
    (by decide) (by decide) (by decide)⟩

/-- With at least as many CRTCs as outputs and a profile whose connector names are
unique, an output named by a setting of the profile gets, at its index, the CRTC update
with the mode `find_mode` resolves, the x and y of the setting and the output as its only
output, and the output update with the primary flag of the setting. -/
theorem setProfile_named_output_enabled (R : Resources) (profile : Profile)
    (hlen : R.outputs.length ≤ R.crtcs.length)
    (hnd : (profile.outputs.map OutputSetting.connector_name).Nodup) :
    ∃ cfg, _setProfile R profile = some cfg ∧
      ∀ (i : Nat) (o : Output) (s : OutputSetting) (mode : Int), R.outputs[i]? = some o → s ∈ profile.outputs →
        s.connector_name = o.name →
        _getModeFromData R s.width s.height s.refresh_rate i = some mode →
        ∃ cu, cfg.crtcs_out[i]? = some cu ∧ cu.mode = mode ∧ cu.x = s.x ∧ cu.y = s.y ∧
          cu.outputs = [o.id] ∧ cfg.outputs_out[i]? = some ⟨o.id, [("primary", s.primary)]⟩ := by
  obtain ⟨cfg, hcfg, -, -, -, -, hstep⟩ := setProfile_of_enough_crtcs R profile hlen
  refine ⟨cfg, hcfg, fun i o s mode ho hmem hname hmode => ?_⟩
  have hi : i < R.outputs.length := (List.getElem?_eq_some_iff.1 ho).1
  have hc : R.crtcs[i]? = some R.crtcs[i] := List.getElem?_eq_getElem (by omega)
  obtain ⟨cu, ou, hs, hcu, hou⟩ := hstep i hi
  rw [setProfileStep_of_present R profile i o _ s ho hc
    (profileIndexLoop_of_nodup o.name profile.outputs s hnd hmem hname)] at hs
  rw [getModeFromData_of_output R _ _ _ i o ho, Option.some.injEq] at hmode
  simp only [Option.some.injEq, Prod.mk.injEq] at hs
  refine ⟨cu, hcu, ?_, ?_, ?_, ?_, ?_⟩
  · rw [← hs.1]; exact hmode
  · rw [← hs.1]
  · rw [← hs.1]
  · rw [← hs.1]
  · rw [hou, ← hs.2]

/-- C2, at a failing input: three connected outputs on two CRTCs.  `find_mode` resolves
the 1920x1080 at 60 Hz that "Docked" asks of `HDMI-1` to the mode 71, and
`build_configuration` emits nothing: the turn of the third output reads the id of a third
CRTC and raises. -/
theorem setProfile_raises_for_resolved_output :
    (dockedProfile.outputs.map OutputSetting.connector_name).Nodup ∧
      _getModeFromData threeOutputResources 1920 1080 60 0 = some 71 ∧
      _setProfile threeOutputResources dockedProfile = none := by
  decide!

/-- C3, as stated, fails: `HDMI-1` is asked for 2560x1440 at 75 Hz, which `find_mode`
does not find, and its output update still carries the primary property, and its CRTC
update the position of the setting, where an output absent from the profile gets no
property and the position of the CRTC. -/
theorem setProfile_unresolved_output_keeps_primary :
    _getModeFromData dockedResources 2560 1440 75 0 = some (-1) ∧
      _setProfile dockedResources unavailableProfile =
        some ⟨7, true, [⟨50, -1, 1920, 0, 0, [10], []⟩, ⟨51, -1, 0, 0, 0, [11], []⟩],
          [⟨10, [("primary", true)]⟩, ⟨11, []⟩]⟩ ∧
      _setProfile dockedResources ⟨"Wide", false, []⟩ =
        some ⟨7, true, [⟨50, -1, 0, 0, 0, [10], []⟩, ⟨51, -1, 0, 0, 0, [11], []⟩],
          [⟨10, []⟩, ⟨11, []⟩]⟩ := by
  decide!

/-- C3, amended. For every profile and every topology with at least as many CRTCs as
outputs, `build_configuration` (`_setProfile`) completes and, when the last output
setting of the profile that names an output is one for which `find_mode` finds no mode,
`crtcs_out` holds at the index of the output an update of the CRTC at that index with the
mode `-1`, the x and y of the setting, the transform 0 and the output as its only output,
and `outputs_out` holds at that index the id of the output with the primary flag of the
setting. -/
theorem setProfile_unresolved_output_disabled (R : Resources) (profile : Profile)
    (hlen : R.outputs.length ≤ R.crtcs.length) :
    ∃ cfg, _setProfile R profile = some cfg ∧
      ∀ (i : Nat) (o : Output) (c : Crtc) (s : OutputSetting) (pre post : List OutputSetting),
        R.outputs[i]? = some o → R.crtcs[i]? = some c →
        profile.outputs = pre ++ s :: post → s.connector_name = o.name →
        (∀ t ∈ post, t.connector_name ≠ o.name) →
        _getModeFromData R s.width s.height s.refresh_rate i = some (-1) →
        cfg.crtcs_out[i]? = some ⟨c.id, -1, s.x, s.y, 0, [o.id], []⟩ ∧
          cfg.outputs_out[i]? = some ⟨o.id, [("primary", s.primary)]⟩ := by
  obtain ⟨cfg, hcfg, -, -, -, -, hstep⟩ := setProfile_of_enough_crtcs R profile hlen
  refine ⟨cfg, hcfg, fun i o c s pre post ho hc hsplit hname hpost hmode => ?_⟩
  have hi : i < R.outputs.length := (List.getElem?_eq_some_iff.1 ho).1
  obtain ⟨cu, ou, hs, hcu, hou⟩ := hstep i hi
  have hp : profileIndexLoop o.name none profile.outputs = some s := by
    rw [hsplit]; exact profileIndexLoop_last o.name none pre post s hname hpost
  rw [setProfileStep_of_present R profile i o c s ho hc hp] at hs
  rw [getModeFromData_of_output R _ _ _ i o ho, Option.some.injEq] at hmode
  rw [hmode] at hs
  simp only [Option.some.injEq, Prod.mk.injEq] at hs
  rw [hcu, hou, ← hs.1, ← hs.2]
  exact ⟨rfl, rfl⟩

/-- In the scenario topology the profile asking `HDMI-1` for 2560x1440 at 75 Hz disables
the first CRTC at the position of the setting and keeps the primary flag. -/
theorem setProfile_unresolved_output_disabled_witness :
    dockedResources.outputs.length ≤ dockedResources.crtcs.length ∧
      ∃ cfg, _setProfile dockedResources unavailableProfile = some cfg ∧
        cfg.crtcs_out[0]? = some ⟨50, -1, 1920, 0, 0, [10], []⟩ ∧
        cfg.outputs_out[0]? = some ⟨10, [("primary", true)]⟩ := by
  refine ⟨by decide, ?_⟩
  obtain ⟨cfg, hcfg, h⟩ :=
    setProfile_unresolved_output_disabled dockedResources unavailableProfile (by decide)
  exact ⟨cfg, hcfg, h 0 ⟨10, -1, "HDMI-1", [70, 71, 72], "Acme 24", false⟩
    ⟨50, 0, 0, 1920, 1080, 72, 0⟩ ⟨"HDMI-1", "Acme 24", 1920, 0, 2560, 1440, 75, 1, true⟩ [] []
    (by decide) (by decide) (by decide) (by decide) (by decide) (by decide!)⟩

/-- With at least as many CRTCs as outputs `_setProfile` emits one CRTC update and one
output update for each output, in topology order, the pair at index `k` naming the id of
the output at index `k`. -/
theorem setProfile_one_update_per_output (R : Resources) (profile : Profile)
    (hlen : R.outputs.length ≤ R.crtcs.length) :
    ∃ cfg, _setProfile R profile = some cfg ∧
      cfg.crtcs_out.map CrtcUpdate.outputs = R.outputs.map (fun o => [o.id]) ∧
      cfg.outputs_out.map OutputUpdate.id = R.outputs.map Output.id := by
  obtain ⟨cfg, hcfg, -, -, hl1, hl2, hstep⟩ := setProfile_of_enough_crtcs R profile hlen
  refine ⟨cfg, hcfg, ?_, ?_⟩
  · apply List.ext_getElem?
    intro i
    by_cases hi : i < R.outputs.length
    · obtain ⟨cu, ou, hs, hcu, hou⟩ := hstep i hi
      have ho : R.outputs[i]? = some R.outputs[i] := List.getElem?_eq_getElem hi
      have hc : R.crtcs[i]? = some R.crtcs[i] := List.getElem?_eq_getElem (by omega)
      rw [List.getElem?_map, List.getElem?_map, hcu, ho]
      cases hp : profileIndexLoop R.outputs[i].name none profile.outputs with
      | none =>
        rw [setProfileStep_of_absent R profile i _ _ ho hc hp] at hs
        simp only [Option.some.injEq, Prod.mk.injEq] at hs
        rw [← hs.1]; rfl
      | some s =>
        rw [setProfileStep_of_present R profile i _ _ s ho hc hp] at hs
        simp only [Option.some.injEq, Prod.mk.injEq] at hs
        rw [← hs.1]; rfl
    · rw [List.getElem?_eq_none (by simp; omega), List.getElem?_eq_none (by simp; omega)]
  · apply List.ext_getElem?
    intro i
    by_cases hi : i < R.outputs.length
    · obtain ⟨cu, ou, hs, hcu, hou⟩ := hstep i hi
      have ho : R.outputs[i]? = some R.outputs[i] := List.getElem?_eq_getElem hi
      have hc : R.crtcs[i]? = some R.crtcs[i] := List.getElem?_eq_getElem (by omega)
      rw [List.getElem?_map, List.getElem?_map, hou, ho]
      cases hp : profileIndexLoop R.outputs[i].name none profile.outputs with
      | none =>
        rw [setProfileStep_of_absent R profile i _ _ ho hc hp] at hs
        simp only [Option.some.injEq, Prod.mk.injEq] at hs
        rw [← hs.2]; rfl
      | some s =>
        rw [setProfileStep_of_present R profile i _ _ s ho hc hp] at hs
        simp only [Option.some.injEq, Prod.mk.injEq] at hs
        rw [← hs.2]; rfl
    · rw [List.getElem?_eq_none (by simp; omega), List.getElem?_eq_none (by simp; omega)]

/-- C4, at a failing input: with three connected outputs on two CRTCs
`build_configuration` raises for every profile, at the turn of the third output, and
emits no update at all. -/
theorem setProfile_raises_with_fewer_crtcs :
    threeOutputResources.crtcs.length = 2 ∧ threeOutputResources.outputs.length = 3 ∧
      ∀ profile, _setProfile threeOutputResources profile = none :=
  ⟨rfl, rfl, fun profile => (setProfile_eq_none_iff threeOutputResources profile).2 (by decide)⟩

end DisplayProfileManager2

/-! ## Profile predicates: theorems -/

theorem outputFoundLoop_iff (p : OutputSetting) (os : List Output)
    (hnd : (os.map Output.name).Nodup) :
    DisplayProfileManager2.outputFoundLoop p os = true ↔
      ∃ o ∈ os, o.name = p.connector_name ∧ o.display_name = p.display_name := by
  induction os with
  | nil => simp [DisplayProfileManager2.outputFoundLoop]
  | cons o os ih =>
    rw [List.map_cons, List.nodup_cons] at hnd
    rw [DisplayProfileManager2.outputFoundLoop]
    by_cases hn : o.name = p.connector_name
    · rw [if_pos hn]
      by_cases hd : o.display_name = p.display_name
      · simp only [hd, ne_eq, not_true_eq_false, if_false, true_iff]
        exact ⟨o, List.mem_cons_self _ _, hn, hd⟩
      · simp only [ne_eq, hd, not_false_eq_true, if_true, Bool.false_eq_true, false_iff]
        rintro ⟨o', ho', hn', hd'⟩
        rcases List.mem_cons.1 ho' with rfl | hmem
        · exact hd hd'
        · exact hnd.1 (List.mem_map.2 ⟨o', hmem, by rw [hn', hn]⟩)
    · rw [if_neg hn, ih hnd.2]
      constructor
      · rintro ⟨o', ho', h⟩; exact ⟨o', List.mem_cons_of_mem _ ho', h⟩
      · rintro ⟨o', ho', hn', hd'⟩
        rcases List.mem_cons.1 ho' with rfl | hmem
        · exact absurd hn' hn
        · exact ⟨o', hmem, hn', hd'⟩

theorem legacy_outputFoundLoop_iff (p : OutputSetting) (os : List RROutputInfo)
    (hnd : (os.map RROutputInfo.name).Nodup) :
    DisplayProfileManager.outputFoundLoop p os = true ↔
      ∃ o ∈ os, o.name = p.connector_name ∧ o.display_name = p.display_name ∧
        o.connected = true := by
  induction os with
  | nil => simp [DisplayProfileManager.outputFoundLoop]
  | cons o os ih =>
    rw [List.map_cons, List.nodup_cons] at hnd
    rw [DisplayProfileManager.outputFoundLoop]
    by_cases hn : o.name = p.connector_name
    · rw [if_pos hn]
      by_cases hd : o.connected = true ∧ o.display_name = p.display_name
      · have hc : ¬ (o.connected = false ∨ o.display_name ≠ p.display_name) := by
          rintro (h | h)
          · rw [hd.1] at h; cases h
          · exact h hd.2
        rw [if_neg hc]
        simp only [true_iff]
        exact ⟨o, List.mem_cons_self _ _, hn, hd.2, hd.1⟩
      · have hc : o.connected = false ∨ o.display_name ≠ p.display_name := by
          by_cases h1 : o.connected = true
          · exact Or.inr (fun h2 => hd ⟨h1, h2⟩)
          · exact Or.inl (by simpa using h1)
        rw [if_pos hc]
        simp only [Bool.false_eq_true, false_iff]
        rintro ⟨o', ho', hn', hd', hc'⟩
        rcases List.mem_cons.1 ho' with rfl | hmem
        · exact hd ⟨hc', hd'⟩
        · exact hnd.1 (List.mem_map.2 ⟨o', hmem, by rw [hn', hn]⟩)
    · rw [if_neg hn, ih hnd.2]
      constructor
      · rintro ⟨o', ho', h⟩; exact ⟨o', List.mem_cons_of_mem _ ho', h⟩
      · rintro ⟨o', ho', hn', hd'⟩
        rcases List.mem_cons.1 ho' with rfl | hmem
        · exact absurd hn' hn
        · exact ⟨o', hmem, hn', hd'⟩

/-- C5, as stated, fails: when two outputs of the topology bear the connector name
`HDMI-1` and only the second has the display name "Acme 24", the setting of "Docked" has
an output with its connector name and display name (connected, for the legacy manager),
and `is_applicable` is false in both managers: the search stops at the first output
with the name. -/
theorem checkProfilePossible_stops_at_first_name :
    (DisplayProfileManager2._checkProfilePossible duplicateNameResources dockedProfile = false ∧
      ∀ s ∈ dockedProfile.outputs, ∃ o ∈ duplicateNameResources.outputs,
        o.name = s.connector_name ∧ o.display_name = s.display_name) ∧
    (DisplayProfileManager._checkProfilePossible duplicateNameOutputs dockedProfile = false ∧
      ∀ s ∈ dockedProfile.outputs, ∃ o ∈ duplicateNameOutputs,
        o.name = s.connector_name ∧ o.display_name = s.display_name ∧ o.connected = true) := by
  decide

/-- C5, amended. For every profile and every topology whose connector names are pairwise
distinct, `is_applicable` (`_checkProfilePossible`) returns true if and only if every
output setting of the profile has an output in the topology with the same connector name
and the same display name that reports itself connected: in `DisplayProfileManager` by
`is_connected()`, in `DisplayProfileManager2` by being listed in the outputs of
`GetResources`, which have no connection flag. -/
theorem checkProfilePossible_iff (R : Resources) (outputs : List RROutputInfo)
    (profile : Profile) (hR : (R.outputs.map Output.name).Nodup)
    (hL : (outputs.map RROutputInfo.name).Nodup) :
    (DisplayProfileManager2._checkProfilePossible R profile = true ↔
      ∀ s ∈ profile.outputs, ∃ o ∈ R.outputs,
        o.name = s.connector_name ∧ o.display_name = s.display_name) ∧
    (DisplayProfileManager._checkProfilePossible outputs profile = true ↔
      ∀ s ∈ profile.outputs, ∃ o ∈ outputs,
        o.name = s.connector_name ∧ o.display_name = s.display_name ∧ o.connected = true) := by
  constructor
  · unfold DisplayProfileManager2._checkProfilePossible
    induction profile.outputs with
    | nil => simp [DisplayProfileManager2.checkProfilePossibleLoop]
    | cons p ps ih =>
      rw [DisplayProfileManager2.checkProfilePossibleLoop, List.forall_mem_cons,
        ← outputFoundLoop_iff p R.outputs hR, ← ih]
      by_cases h : DisplayProfileManager2.outputFoundLoop p R.outputs = true
      · simp [h]
      · simp [h]
  · unfold DisplayProfileManager._checkProfilePossible
    induction profile.outputs with
    | nil => simp [DisplayProfileManager.checkProfilePossibleLoop]
    | cons p ps ih =>
      rw [DisplayProfileManager.checkProfilePossibleLoop, List.forall_mem_cons,
        ← legacy_outputFoundLoop_iff p outputs hL, ← ih]
      by_cases h : DisplayProfileManager.outputFoundLoop p outputs = true
      · simp [h]
      · simp [h]

/-- With `HDMI-1` ("Acme 24") and `eDP-1` ("Laptop") both connected, "Docked" is applicable
and "Missing", which lists `DP-1`, is not, in both managers. -/
theorem checkProfilePossible_iff_witness :
    ((dockedResources.outputs.map Output.name).Nodup ∧
      (dockedOutputs.map RROutputInfo.name).Nodup) ∧
    (DisplayProfileManager2._checkProfilePossible dockedResources dockedProfile = true ∧
      DisplayProfileManager._checkProfilePossible dockedOutputs dockedProfile = true) ∧
    (¬ DisplayProfileManager2._checkProfilePossible dockedResources missingProfile = true ∧
      ¬ DisplayProfileManager._checkProfilePossible dockedOutputs missingProfile = true) :=
  ⟨⟨by decide, by decide⟩,
    ⟨(checkProfilePossible_iff dockedResources dockedOutputs dockedProfile
        (by decide) (by decide)).1.2 (by decide),
      (checkProfilePossible_iff dockedResources dockedOutputs dockedProfile
        (by decide) (by decide)).2.2 (by decide)⟩,
    ⟨fun h => absurd ((checkProfilePossible_iff dockedResources dockedOutputs missingProfile
        (by decide) (by decide)).1.1 h) (by decide),
      fun h => absurd ((checkProfilePossible_iff dockedResources dockedOutputs missingProfile
        (by decide) (by decide)).2.1 h) (by decide)⟩⟩

namespace DisplayProfileManager2

theorem outputFieldsEqual_iff (a b : OutputSetting) : outputFieldsEqual a b = true ↔ a = b := by
  cases a; cases b
  simp [outputFieldsEqual, and_assoc]

theorem compareLoop_eq_of_length (as bs : List OutputSetting) (hlen : as.length = bs.length)
    (h : compareLoop as bs = true) : as = bs := by
  induction as generalizing bs with
  | nil => cases bs with
    | nil => rfl
    | cons b bs => simp at hlen
  | cons a as ih =>
    cases bs with
    | nil => simp at hlen
    | cons b bs =>
      rw [compareLoop] at h
      by_cases hf : outputFieldsEqual a b = true
      · rw [if_pos hf] at h
        rw [(outputFieldsEqual_iff a b).1 hf, ih bs (by simpa using hlen) h]
      · rw [if_neg hf] at h; cases h

theorem compareLoop_self (as : List OutputSetting) : compareLoop as as = true := by
  induction as with
  | nil => rfl
  | cons a as ih => rw [compareLoop, if_pos ((outputFieldsEqual_iff a a).2 rfl), ih]

/-- C7. If `equals` (`_compareProfiles` of `DisplayProfileManager2`) returns true for the
profiles `A` and `B`, they have the same number of outputs and the same clone flag, and
the outputs of `B` are a rearrangement of the outputs of `A`, each output setting equal
in all its nine fields; the names of the profiles are not compared, the result is the
same under any two names. -/
theorem compareProfiles_true_implies (A B : Profile) (h : _compareProfiles A B = true) :
    A.outputs.length = B.outputs.length ∧ A.clone = B.clone ∧ A.outputs.Perm B.outputs ∧
      ∀ n m : String, _compareProfiles ⟨n, A.clone, A.outputs⟩ ⟨m, B.clone, B.outputs⟩ = true := by
  have hname : ∀ n m : String,
      _compareProfiles ⟨n, A.clone, A.outputs⟩ ⟨m, B.clone, B.outputs⟩ = _compareProfiles A B :=
    fun _ _ => rfl
  unfold _compareProfiles at h
  by_cases hg : 2 + A.outputs.length ≠ 2 + B.outputs.length ∨ A.clone ≠ B.clone
  · rw [if_pos hg] at h; cases h
  · rw [if_neg hg] at h
    have hlen : A.outputs.length = B.outputs.length := by
      by_contra hne; exact hg (Or.inl (by omega))
    have hclone : A.clone = B.clone := by
      by_contra hne; exact hg (Or.inr hne)
    have hsorted : defaultSort A.outputs = defaultSort B.outputs :=
      compareLoop_eq_of_length _ _
        (by rw [defaultSort, defaultSort, List.length_insertionSort, List.length_insertionSort,
          hlen]) h
    have hperm : A.outputs.Perm B.outputs :=
      ((List.perm_insertionSort defaultSortLe A.outputs).symm.trans
        (by rw [← defaultSort, hsorted]; exact List.perm_insertionSort defaultSortLe B.outputs))
    refine ⟨hlen, hclone, hperm, fun n m => ?_⟩
    rw [hname n m]
    unfold _compareProfiles
    rw [if_neg hg]; exact h

/-- The two orders of the outputs of `extendedProfile` are equal profiles, under any
names. -/
theorem compareProfiles_true_implies_witness :
    _compareProfiles extendedProfile extendedProfileReversed = true ∧
      extendedProfile.outputs.Perm extendedProfileReversed.outputs ∧
      _compareProfiles ⟨"A", false, extendedProfile.outputs⟩
        ⟨"B", false, extendedProfileReversed.outputs⟩ = true :=
  ⟨by decide,
    (compareProfiles_true_implies extendedProfile extendedProfileReversed (by decide)).2.2.1,
    (compareProfiles_true_implies extendedProfile extendedProfileReversed (by decide)).2.2.2
      "A" "B"⟩

theorem lexLt_asymm (a b : List Nat) (h : lexLt a b = true) : lexLt b a = false := by
  induction a generalizing b with
  | nil => cases b <;> simp_all [lexLt]
  | cons x a ih =>
    cases b with
    | nil => simp_all [lexLt]
    | cons y b =>
      rw [lexLt] at h ⊢
      by_cases h1 : x < y
      · rw [if_neg (by omega), if_pos h1]
      · rw [if_neg h1] at h
        by_cases h2 : y < x
        · rw [if_pos h2] at h; cases h
        · rw [if_neg h2] at h
          rw [if_neg h2, if_neg h1]
          exact ih b h

theorem lexLt_trans (a b c : List Nat) (hab : lexLt a b = true) (hbc : lexLt b c = true) :
    lexLt a c = true := by
  induction a generalizing b c with
  | nil =>
    cases b with
    | nil => simp [lexLt] at hab
    | cons y b =>
      cases c with
      | nil => simp [lexLt] at hbc
      | cons z c => rfl
  | cons x a ih =>
    cases b with
    | nil => simp [lexLt] at hab
    | cons y b =>
      cases c with
      | nil => simp [lexLt] at hbc
      | cons z c =>
        rw [lexLt] at hab hbc ⊢
        by_cases h1 : x < y
        · by_cases h2 : y < z
          · rw [if_pos (by omega)]
          · rw [if_neg h2] at hbc
            by_cases h3 : z < y
            · rw [if_pos h3] at hbc; cases hbc
            · rw [if_pos (by omega)]
        · rw [if_neg h1] at hab
          by_cases h1' : y < x
          · rw [if_pos h1'] at hab; cases hab
          · rw [if_neg h1'] at hab
            by_cases h2 : y < z
            · rw [if_pos (by omega)]
            · rw [if_neg h2] at hbc
              by_cases h3 : z < y
              · rw [if_pos h3] at hbc; cases hbc
              · rw [if_neg h3] at hbc
                rw [if_neg (by omega), if_neg (by omega)]
                exact ih b c hab hbc

theorem lexLt_eq_of_not_lt (a b : List Nat) (hab : lexLt a b = false) (hba : lexLt b a = false) :
    a = b := by
  induction a generalizing b with
  | nil => cases b <;> simp_all [lexLt]
  | cons x a ih =>
    cases b with
    | nil => simp_all [lexLt]
    | cons y b =>
      rw [lexLt] at hab hba
      by_cases h1 : x < y
      · rw [if_pos h1] at hab; cases hab
      · rw [if_neg h1] at hab
        by_cases h2 : y < x
        · rw [if_pos h2] at hba; cases hba
        · rw [if_neg h2] at hab
          rw [if_neg h2, if_neg h1] at hba
          have hxy : x = y := by omega
          rw [hxy, ih b hab hba]

theorem defaultSortLe_total (a b : OutputSetting) : defaultSortLe a b ∨ defaultSortLe b a := by
  unfold defaultSortLe
  cases h : lexLt (codeUnits (outputToString b)) (codeUnits (outputToString a)) with
  | false => exact Or.inl rfl
  | true => exact Or.inr (lexLt_asymm _ _ h)

theorem defaultSortLe_trans (a b c : OutputSetting) (hab : defaultSortLe a b)
    (hbc : defaultSortLe b c) : defaultSortLe a c := by
  unfold defaultSortLe at *
  cases hca : lexLt (codeUnits (outputToString c)) (codeUnits (outputToString a)) with
  | false => rfl
  | true =>
    cases hab' : lexLt (codeUnits (outputToString a)) (codeUnits (outputToString b)) with
    | false =>
      have := lexLt_eq_of_not_lt _ _ hab' hab
      rw [this] at hca
      rw [hca] at hbc; cases hbc
    | true =>
      have := lexLt_trans _ _ _ hca hab'
      rw [this] at hbc; cases hbc

/-- The default sort gives one and the same list for two lists that are rearrangements of
each other, when no two different outputs of the list have the same string. -/
theorem defaultSort_eq_of_perm (l l' : List OutputSetting) (hperm : l.Perm l')
    (hinj : ∀ a ∈ l, ∀ b ∈ l,
      codeUnits (outputToString a) = codeUnits (outputToString b) → a = b) :
    defaultSort l = defaultSort l' := by
  haveI : IsTotal OutputSetting defaultSortLe := ⟨defaultSortLe_total⟩
  haveI : IsTrans OutputSetting defaultSortLe := ⟨defaultSortLe_trans⟩
  have hanti : IsAntisymm OutputSetting (fun a b => defaultSortLe a b ∧ a ∈ l ∧ b ∈ l) :=
    ⟨fun a b hab hba =>
      hinj a hab.2.1 b hab.2.2 (lexLt_eq_of_not_lt _ _ hba.1 hab.1)⟩
  have hp1 : (defaultSort l).Perm l := List.perm_insertionSort defaultSortLe l
  have hp2 : (defaultSort l').Perm l := (List.perm_insertionSort defaultSortLe l').trans hperm.symm
  have hs1 : (defaultSort l).Sorted (fun a b => defaultSortLe a b ∧ a ∈ l ∧ b ∈ l) :=
    List.Pairwise.imp_of_mem (fun ha hb h => ⟨h, hp1.subset ha, hp1.subset hb⟩)
      (List.sorted_insertionSort defaultSortLe l)
  have hs2 : (defaultSort l').Sorted (fun a b => defaultSortLe a b ∧ a ∈ l ∧ b ∈ l) :=
    List.Pairwise.imp_of_mem (fun ha hb h => ⟨h, hp2.subset ha, hp2.subset hb⟩)
      (List.sorted_insertionSort defaultSortLe l')
  exact @List.eq_of_perm_of_sorted _ _ hanti _ _ (hp1.trans hp2.symm) hs1 hs2

/-- In `DisplayProfileManager2` the order of the outputs does not matter to `equals`:
with the same clone flag and the outputs of `P` rearranged, `_compareProfiles` is true,
when no two different outputs of `P` have the same string. -/
theorem compareProfiles_of_perm (P P' : Profile) (hclone : P.clone = P'.clone)
    (hperm : P.outputs.Perm P'.outputs)
    (hinj : ∀ a ∈ P.outputs, ∀ b ∈ P.outputs,
      codeUnits (outputToString a) = codeUnits (outputToString b) → a = b) :
    _compareProfiles P P' = true := by
  unfold _compareProfiles
  rw [if_neg (by rw [hperm.length_eq, hclone]; simp),
    defaultSort_eq_of_perm P.outputs P'.outputs hperm hinj]
  exact compareLoop_self _

/-- In `DisplayProfileManager2` two outputs whose strings coincide, the comma of a
connector name being taken for the separator, are left in their own order by the sort,
and `equals` is false for the rearranged profile. -/
theorem compareProfiles_comma_names_order_dependent :
    commaProfile.outputs.Perm commaProfileReversed.outputs ∧
      _compareProfiles commaProfile commaProfileReversed = false := by
  decide

end DisplayProfileManager2

/-- C6, at a failing input: `extendedProfileReversed` has the clone flag of
`extendedProfile` and its two outputs in the other order.  The comparator of the legacy
manager subtracts the connector names `HDMI-1` and `eDP-1`, which is `NaN` whatever the
runtime makes of numeric strings, so its sort leaves both lists as they are and `equals`
is false; the default sort of `DisplayProfileManager2` makes it true. -/
theorem legacy_compareProfiles_order_dependent :
    extendedProfile.clone = extendedProfileReversed.clone ∧
      extendedProfile.outputs.Perm extendedProfileReversed.outputs ∧
      (∀ numericSign : String → String → Int,
        DisplayProfileManager._compareProfiles numericSign extendedProfile
          extendedProfileReversed = false) ∧
      DisplayProfileManager2._compareProfiles extendedProfile extendedProfileReversed = true :=
  ⟨rfl, by decide, fun _ => rfl, by decide⟩

/-! ## The legacy snapshot capturer: theorems -/

theorem legacy_primaryFoundLoop_eq (found : Bool) (ps : List OutputSetting) :
    DisplayProfileManager.primaryFoundLoop found ps = (found || ps.any (fun p => p.primary)) := by
  induction ps generalizing found with
  | nil => simp [DisplayProfileManager.primaryFoundLoop]
  | cons p ps ih =>
    rw [DisplayProfileManager.primaryFoundLoop, ih]
    cases hp : p.primary <;> cases found <;> simp [hp]

theorem legacy_getCurrentProfileLoop_eq (outputs : List RROutputInfo) :
    DisplayProfileManager.getCurrentProfileLoop outputs =
      (outputs.filter (fun o => o.connected && o.active)).map (fun o =>
        (⟨o.name, o.display_name, o.x, o.y, o.width, o.height, o.refresh_rate, o.rotation,
          o.primary⟩ : OutputSetting)) := by
  induction outputs with
  | nil => rfl
  | cons o os ih =>
    rw [DisplayProfileManager.getCurrentProfileLoop, ih]
    cases hc : o.connected <;> cases ha : o.active <;> simp [List.filter_cons, hc, ha]

/-- The legacy capture raises exactly when no output is connected and active. -/
theorem legacy_getCurrentProfile_eq_none_iff (clone : Bool) (outputs : List RROutputInfo) :
    DisplayProfileManager._getCurrentProfile clone outputs = none ↔
      ∀ o ∈ outputs, ¬ (o.connected = true ∧ o.active = true) := by
  have hnil : DisplayProfileManager.getCurrentProfileLoop outputs = [] ↔
      ∀ o ∈ outputs, ¬ (o.connected = true ∧ o.active = true) := by
    rw [legacy_getCurrentProfileLoop_eq, List.map_eq_nil_iff, List.filter_eq_nil_iff]
    simp
  unfold DisplayProfileManager._getCurrentProfile
  rw [← hnil]
  cases hl : DisplayProfileManager.getCurrentProfileLoop outputs with
  | nil => simp [DisplayProfileManager.primaryFoundLoop]
  | cons p ps =>
    simp only [reduceCtorEq, iff_false]
    split <;> simp

/-- C13, at a failing input: with `HDMI-1` connected and switched off and `VGA-1` not
connected, no output is connected and active, and the legacy capture returns no profile:
no output is primary, so it assigns `profile[2][8]` in a profile of length 2 and raises.
The same holds for every state without a connected and active output, the one with no
output at all included. -/
theorem legacy_getCurrentProfile_raises_without_active_output :
    (∀ o ∈ inactiveOutputs, ¬ (o.connected = true ∧ o.active = true)) ∧
      (∀ clone, DisplayProfileManager._getCurrentProfile clone inactiveOutputs = none) ∧
      (∀ clone, DisplayProfileManager._getCurrentProfile clone [] = none) :=
  ⟨by decide, fun clone => by cases clone <;> decide, fun clone => by cases clone <;> decide⟩

/-- The legacy capture with at least one connected and active output: when none of them
reports primary, the first emitted output is made primary and every other field and
output is as read; when one does, the outputs are as read.  With at most one of them
reporting primary, exactly one output of the profile is primary. -/
theorem legacy_getCurrentProfile_normalizes (clone : Bool) (outputs : List RROutputInfo)
    (p : OutputSetting) (ps : List OutputSetting)
    (h : DisplayProfileManager.getCurrentProfileLoop outputs = p :: ps) :
    ((∀ s ∈ p :: ps, s.primary = false) →
      DisplayProfileManager._getCurrentProfile clone outputs =
        some ⟨"Unnamed", clone, { p with primary := true } :: ps⟩) ∧
    ((∃ s ∈ p :: ps, s.primary = true) →
      DisplayProfileManager._getCurrentProfile clone outputs =
        some ⟨"Unnamed", clone, p :: ps⟩) ∧
    ((p :: ps).countP (fun s => s.primary) ≤ 1 →
      ∃ profile, DisplayProfileManager._getCurrentProfile clone outputs = some profile ∧
        profile.outputs.countP (fun s => s.primary) = 1) := by
  have hnone : (∀ s ∈ p :: ps, s.primary = false) →
      DisplayProfileManager._getCurrentProfile clone outputs =
        some ⟨"Unnamed", clone, { p with primary := true } :: ps⟩ := by
    intro hall
    have hany : (p :: ps).any (fun s => s.primary) = false := by
      rw [List.any_eq_false]; intro s hs; simp [hall s hs]
    simp [DisplayProfileManager._getCurrentProfile, h, legacy_primaryFoundLoop_eq, hany]
  have hsome : (∃ s ∈ p :: ps, s.primary = true) →
      DisplayProfileManager._getCurrentProfile clone outputs =
        some ⟨"Unnamed", clone, p :: ps⟩ := by
    intro hex
    have hany : (p :: ps).any (fun s => s.primary) = true := by
      rw [List.any_eq_true]; exact hex
    simp [DisplayProfileManager._getCurrentProfile, h, legacy_primaryFoundLoop_eq, hany]
  refine ⟨hnone, hsome, fun hle => ?_⟩
  by_cases hex : ∃ s ∈ p :: ps, s.primary = true
  · refine ⟨_, hsome hex, ?_⟩
    have hpos : 0 < (p :: ps).countP (fun s => s.primary) := List.countP_pos_iff.2 hex
    show (p :: ps).countP (fun s => s.primary) = 1
    omega
  · have hall : ∀ s ∈ p :: ps, s.primary = false := fun s hs => by
      cases hp : s.primary with
      | false => rfl
      | true => exact absurd ⟨s, hs, hp⟩ hex
    refine ⟨_, hnone hall, ?_⟩
    have hps : ps.countP (fun s => s.primary) = 0 := by
      rw [List.countP_eq_zero]
      intro s hs; simp [hall s (List.mem_cons_of_mem _ hs)]
    show (({ p with primary := true } : OutputSetting) :: ps).countP (fun s => s.primary) = 1
    rw [List.countP_cons_of_pos _ _ (by rfl), hps]

namespace DisplayProfileManager2

/-- The capture of `DisplayProfileManager2` has no second loop: when no output of the
topology reports primary, no output of the profile is primary. -/
theorem getCurrentProfile_without_primary (R : Resources)
    (h : ∀ o ∈ R.outputs, o.primary = false) :
    ∃ profile, _getCurrentProfile R = some profile ∧ ∀ s ∈ profile.outputs, s.primary = false := by
  refine ⟨_, by rw [_getCurrentProfile, getCurrentProfileLoop_eq]; rfl, fun s hs => ?_⟩
  simp only [List.mem_filterMap, Option.map_eq_some'] at hs
  obtain ⟨o, ho, c, -, rfl⟩ := hs
  exact h o ho

end DisplayProfileManager2

/-- C11, at a failing input: `eDP-1` is the only driven output and does not report itself
primary.  The capture of `DisplayProfileManager2` returns a profile with one output and
none primary, where the claim has exactly one; the legacy capture, on the same state,
makes that output primary and leaves its other fields as read. -/
theorem getCurrentProfile_leaves_profile_without_primary :
    DisplayProfileManager2._getCurrentProfile noPrimaryResources =
        some ⟨"Unnamed", false, [⟨"eDP-1", "Laptop", 0, 0, 1920, 1080, 60, 1, false⟩]⟩ ∧
      DisplayProfileManager._getCurrentProfile false noPrimaryOutputs =
        some ⟨"Unnamed", false, [⟨"eDP-1", "Laptop", 0, 0, 1920, 1080, 60, 1, true⟩]⟩ := by
  decide!

/-! ## The round trip through the display server: theorems -/

theorem find?_eq_some_of_unique {α : Type} (p : α → Bool) (l : List α) (i : Nat) (a : α)
    (hi : l[i]? = some a) (hp : p a = true)
    (huniq : ∀ (j : Nat) (b : α), l[j]? = some b → p b = true → j = i) :
    l.find? p = some a := by
  induction l generalizing i with
  | nil => simp at hi
  | cons x xs ih =>
    rw [List.find?_cons]
    cases hx : p x with
    | true =>
      have h0 : 0 = i := huniq 0 x (by simp) hx
      subst h0
      simp at hi
      simp [hi]
    | false =>
      cases i with
      | zero =>
        simp at hi
        rw [hi, hp] at hx; cases hx
      | succ k =>
        simp only [List.getElem?_cons_succ] at hi
        refine ih k hi (fun j b hj hb => ?_)
        have := huniq (j + 1) b (by simpa using hj) hb
        omega

theorem getElem?_index_eq_of_nodup_map {α β : Type} (f : α → β) (l : List α)
    (hnd : (l.map f).Nodup) (i j : Nat) (a b : α) (hi : l[i]? = some a) (hj : l[j]? = some b)
    (hf : f a = f b) : i = j := by
  have hi' : (l.map f)[i]? = some (f a) := by rw [List.getElem?_map, hi]; rfl
  have hj' : (l.map f)[j]? = some (f a) := by rw [List.getElem?_map, hj, hf]; rfl
  have hil : i < (l.map f).length := (List.getElem?_eq_some_iff.1 hi').1
  have hjl : j < (l.map f).length := (List.getElem?_eq_some_iff.1 hj').1
  have e1 : (l.map f)[i] = f a := (List.getElem?_eq_some_iff.1 hi').2
  have e2 : (l.map f)[j] = f a := (List.getElem?_eq_some_iff.1 hj').2
  exact (List.Nodup.getElem_inj_iff hnd).1 (e1.trans e2.symm)

namespace DisplayProfileManager2

theorem profileIndexLoop_mem (name : String) (ps : List OutputSetting) (acc : Option OutputSetting)
    (s : OutputSetting) (h : profileIndexLoop name acc ps = some s) :
    acc = some s ∨ (s ∈ ps ∧ s.connector_name = name) := by
  induction ps generalizing acc with
  | nil => exact Or.inl h
  | cons p ps ih =>
    rw [profileIndexLoop] at h
    rcases ih _ h with h1 | h1
    · by_cases hn : name = p.connector_name
      · rw [if_pos hn] at h1
        have : p = s := Option.some.inj h1
        exact Or.inr ⟨this ▸ List.mem_cons_self _ _, this ▸ hn.symm⟩
      · rw [if_neg hn] at h1; exact Or.inl h1
    · exact Or.inr ⟨List.mem_cons_of_mem _ h1.1, h1.2⟩

/-- With unique mode ids, the mode `find_mode` resolves decodes to the size and rate that
were asked for. -/
theorem getDataFromModeLoop_of_getModeFromDataLoop (allowed : List Nat) (width height freq : Int)
    (modes : List Mode) (hnd : (modes.map Mode.id).Nodup)
    (hne : getModeFromDataLoop allowed width height freq modes ≠ -1) :
    getDataFromModeLoop (getModeFromDataLoop allowed width height freq modes) modes =
      (width, height, freq) := by
  have h1 := getModeFromDataLoop_eq_find allowed width height freq modes
  cases hf : modes.find? (fun m => decide (m.id ∈ allowed ∧ (m.width : Int) = width ∧
      (m.height : Int) = height ∧ mathRound m.frequency = freq)) with
  | none => rw [hf] at h1; exact absurd h1 hne
  | some m =>
    rw [hf] at h1
    have hm : m ∈ modes := List.mem_of_find?_eq_some hf
    have hp := List.find?_some hf
    simp only [decide_eq_true_eq] at hp
    obtain ⟨i, hi⟩ := List.getElem?_of_mem hm
    have h2 : modes.find? (fun m' => decide ((m'.id : Int) = (m.id : Int))) = some m :=
      find?_eq_some_of_unique _ modes i m hi (by simp) (fun j b hj hb => by
        simp only [decide_eq_true_eq, Nat.cast_inj] at hb
        exact getElem?_index_eq_of_nodup_map Mode.id modes hnd j i b m hj hi hb)
    rw [h1, getDataFromModeLoop_eq_find, h2]
    simp only [hp.2.1, hp.2.2.1, hp.2.2.2]

/-- The pair `_setProfile` leaves at the index of an output, in a topology with at least
as many CRTCs as outputs. -/
theorem setProfile_update_at (R : Resources) (profile : Profile) (cfg : Configuration)
    (hcfg : _setProfile R profile = some cfg) (hlen : R.outputs.length ≤ R.crtcs.length)
    (i : Nat) (o : Output) (c : Crtc) (ho : R.outputs[i]? = some o) (hc : R.crtcs[i]? = some c) :
    ∃ cu ou, cfg.crtcs_out[i]? = some cu ∧ cfg.outputs_out[i]? = some ou ∧
      cu.id = c.id ∧ cu.outputs = [o.id] ∧ ou.id = o.id ∧
      (match profileIndexLoop o.name none profile.outputs with
        | none => cu.mode = -1
        | some s =>
          cu.mode = getModeFromDataLoop o.modes s.width s.height s.refresh_rate R.modes ∧
            cu.x = s.x ∧ cu.y = s.y ∧ ou.properties = [("primary", s.primary)]) := by
  obtain ⟨cfg', hcfg', -, -, -, -, hstep⟩ := setProfile_of_enough_crtcs R profile hlen
  have hEq : cfg' = cfg := Option.some.inj (hcfg'.symm.trans hcfg)
  subst hEq
  have hi : i < R.outputs.length := (List.getElem?_eq_some_iff.1 ho).1
  obtain ⟨cu, ou, hs, hcu, hou⟩ := hstep i hi
  refine ⟨cu, ou, hcu, hou, ?_⟩
  cases hp : profileIndexLoop o.name none profile.outputs with
  | none =>
    rw [setProfileStep_of_absent R profile i o c ho hc hp] at hs
    simp only [Option.some.injEq, Prod.mk.injEq] at hs
    rw [← hs.1, ← hs.2]
    exact ⟨rfl, rfl, rfl, rfl⟩
  | some s =>
    rw [setProfileStep_of_present R profile i o c s ho hc hp] at hs
    simp only [Option.some.injEq, Prod.mk.injEq] at hs
    rw [← hs.1, ← hs.2]
    exact ⟨rfl, rfl, rfl, rfl, rfl, rfl, rfl⟩

end DisplayProfileManager2

namespace DisplayProfileManager2

theorem applyToCrtc_id (cfg : Configuration) (c : Crtc) : (applyToCrtc cfg c).id = c.id := by
  unfold applyToCrtc
  cases cfg.crtcs_out.find? (fun u => decide (u.id = c.id)) <;> rfl

theorem setProfile_lengths (R : Resources) (profile : Profile) (cfg : Configuration)
    (hcfg : _setProfile R profile = some cfg) (hlen : R.outputs.length ≤ R.crtcs.length) :
    cfg.crtcs_out.length = R.outputs.length ∧ cfg.outputs_out.length = R.outputs.length := by
  obtain ⟨cfg', hcfg', -, -, h1, h2, -⟩ := setProfile_of_enough_crtcs R profile hlen
  have hEq : cfg' = cfg := Option.some.inj (hcfg'.symm.trans hcfg)
  subst hEq
  exact ⟨h1, h2⟩

/-- The update of the CRTC at the index of an output is the first update with the id of
that CRTC, the CRTC ids being unique. -/
theorem find_crtc_update (R : Resources) (profile : Profile) (cfg : Configuration)
    (hcfg : _setProfile R profile = some cfg) (hlen : R.outputs.length ≤ R.crtcs.length)
    (hcid : (R.crtcs.map Crtc.id).Nodup)
    (i : Nat) (c : Crtc) (cu : CrtcUpdate) (hc : R.crtcs[i]? = some c)
    (hcu : cfg.crtcs_out[i]? = some cu) (hid : cu.id = c.id) :
    cfg.crtcs_out.find? (fun u => decide (u.id = c.id)) = some cu := by
  refine find?_eq_some_of_unique _ _ i cu hcu (by simp [hid]) (fun j b hj hb => ?_)
  have hjl : j < R.outputs.length := by
    rw [← (setProfile_lengths R profile cfg hcfg hlen).1]
    exact (List.getElem?_eq_some_iff.1 hj).1
  have hoj : R.outputs[j]? = some R.outputs[j] := List.getElem?_eq_getElem hjl
  have hcj : R.crtcs[j]? = some R.crtcs[j] := List.getElem?_eq_getElem (by omega)
  obtain ⟨cu', ou', h1, -, h3, -⟩ :=
    setProfile_update_at R profile cfg hcfg hlen j _ _ hoj hcj
  have hb' : b = cu' := Option.some.inj (hj.symm.trans h1)
  simp only [decide_eq_true_eq] at hb
  exact getElem?_index_eq_of_nodup_map Crtc.id R.crtcs hcid j i _ c hcj hc
    (by rw [← h3, ← hb', hb])

/-- The update that drives an output after the configuration is applied: the one at its
index when its mode is not `-1`, none otherwise, the output ids being unique. -/
theorem find_driving_update (R : Resources) (profile : Profile) (cfg : Configuration)
    (hcfg : _setProfile R profile = some cfg) (hlen : R.outputs.length ≤ R.crtcs.length)
    (hoid : (R.outputs.map Output.id).Nodup)
    (i : Nat) (o : Output) (cu : CrtcUpdate) (ho : R.outputs[i]? = some o)
    (hcu : cfg.crtcs_out[i]? = some cu) (hout : cu.outputs = [o.id]) :
    cfg.crtcs_out.find? (fun u => u.outputs.contains o.id && decide (u.mode ≠ -1)) =
      if cu.mode ≠ -1 then some cu else none := by
  have hidx : ∀ (j : Nat) (b : CrtcUpdate), cfg.crtcs_out[j]? = some b →
      b.outputs.contains o.id = true → j = i := by
    intro j b hj hb
    have hjl : j < R.outputs.length := by
      rw [← (setProfile_lengths R profile cfg hcfg hlen).1]
      exact (List.getElem?_eq_some_iff.1 hj).1
    have hoj : R.outputs[j]? = some R.outputs[j] := List.getElem?_eq_getElem hjl
    have hcj : R.crtcs[j]? = some R.crtcs[j] := List.getElem?_eq_getElem (by omega)
    obtain ⟨cu', ou', h1, -, -, h4, -⟩ :=
      setProfile_update_at R profile cfg hcfg hlen j _ _ hoj hcj
    have hb' : b = cu' := Option.some.inj (hj.symm.trans h1)
    rw [hb', h4] at hb
    simp only [List.contains_cons, List.contains_nil, Bool.or_false, beq_iff_eq] at hb
    exact getElem?_index_eq_of_nodup_map Output.id R.outputs hoid j i _ o hoj ho hb.symm
  by_cases hm : cu.mode ≠ -1
  · rw [if_pos hm]
    refine find?_eq_some_of_unique _ _ i cu hcu (by simp [hout, hm]) (fun j b hj hb => ?_)
    simp only [Bool.and_eq_true] at hb
    exact hidx j b hj hb.1
  · rw [if_neg hm, List.find?_eq_none]
    intro b hb hp
    obtain ⟨j, hj⟩ := List.getElem?_of_mem hb
    simp only [Bool.and_eq_true, decide_eq_true_eq] at hp
    have hji := hidx j b hj hp.1
    subst hji
    have : b = cu := Option.some.inj (hj.symm.trans hcu)
    exact hm (this ▸ hp.2)

/-- The output update at the index of an output is the first one with the id of the
output, the output ids being unique. -/
theorem find_output_update (R : Resources) (profile : Profile) (cfg : Configuration)
    (hcfg : _setProfile R profile = some cfg) (hlen : R.outputs.length ≤ R.crtcs.length)
    (hoid : (R.outputs.map Output.id).Nodup)
    (i : Nat) (o : Output) (ou : OutputUpdate) (ho : R.outputs[i]? = some o)
    (hou : cfg.outputs_out[i]? = some ou) (hid : ou.id = o.id) :
    cfg.outputs_out.find? (fun u => decide (u.id = o.id)) = some ou := by
  refine find?_eq_some_of_unique _ _ i ou hou (by simp [hid]) (fun j b hj hb => ?_)
  have hjl : j < R.outputs.length := by
    rw [← (setProfile_lengths R profile cfg hcfg hlen).2]
    exact (List.getElem?_eq_some_iff.1 hj).1
  have hoj : R.outputs[j]? = some R.outputs[j] := List.getElem?_eq_getElem hjl
  have hcj : R.crtcs[j]? = some R.crtcs[j] := List.getElem?_eq_getElem (by omega)
  obtain ⟨cu', ou', -, h2, -, -, h5, -⟩ :=
    setProfile_update_at R profile cfg hcfg hlen j _ _ hoj hcj
  have hb' : b = ou' := Option.some.inj (hj.symm.trans h2)
  simp only [decide_eq_true_eq] at hb
  exact getElem?_index_eq_of_nodup_map Output.id R.outputs hoid j i _ o hoj ho
    (by rw [← h5, ← hb', hb])

/-- The CRTC found by its id in the topology after the configuration is applied is the
CRTC of that id as the display server left it, the CRTC ids being unique. -/
theorem find_applied_crtc (R : Resources) (cfg : Configuration)
    (hcid : (R.crtcs.map Crtc.id).Nodup) (i : Nat) (c : Crtc) (hc : R.crtcs[i]? = some c) :
    (applyConfiguration R cfg).crtcs.find? (fun c' => decide ((c'.id : Int) = (c.id : Int))) =
      some (applyToCrtc cfg c) := by
  refine find?_eq_some_of_unique _ _ i _ (by simp [applyConfiguration, hc])
    (by simp [applyToCrtc_id]) (fun j b hj hb => ?_)
  simp only [applyConfiguration, List.getElem?_map, Option.map_eq_some'] at hj
  obtain ⟨c', hc', rfl⟩ := hj
  simp only [decide_eq_true_eq, Nat.cast_inj, applyToCrtc_id] at hb
  exact getElem?_index_eq_of_nodup_map Crtc.id R.crtcs hcid j i c' c hc' hc hb

end DisplayProfileManager2

namespace DisplayProfileManager2

/-- What the capture makes, after the configuration of a profile is applied, of the
output at an index of the topology: the setting of the profile that names it, with the
name and display name of the output and the rotation 1, and nothing when no setting names
it. -/
theorem captured_after_apply (R : Resources) (profile : Profile) (cfg : Configuration)
    (hcfg : _setProfile R profile = some cfg) (hlen : R.outputs.length ≤ R.crtcs.length)
    (hoid : (R.outputs.map Output.id).Nodup) (hcid : (R.crtcs.map Crtc.id).Nodup)
    (hmid : (R.modes.map Mode.id).Nodup)
    (hres : ∀ o ∈ R.outputs, ∀ s ∈ profile.outputs, s.connector_name = o.name →
      getModeFromDataLoop o.modes s.width s.height s.refresh_rate R.modes ≠ -1)
    (o : Output) (ho : o ∈ R.outputs) :
    ((applyConfiguration R cfg).crtcs.find?
        (fun c => decide ((c.id : Int) = (applyToOutput cfg o).current_crtc))).map (fun c =>
      (⟨(applyToOutput cfg o).name, (applyToOutput cfg o).display_name, c.x, c.y,
        (_getDataFromMode (applyConfiguration R cfg) c.current_mode).1,
        (_getDataFromMode (applyConfiguration R cfg) c.current_mode).2.1,
        (_getDataFromMode (applyConfiguration R cfg) c.current_mode).2.2,
        1, (applyToOutput cfg o).primary⟩ : OutputSetting)) =
    (profileIndexLoop o.name none profile.outputs).map (fun s =>
      (⟨o.name, o.display_name, s.x, s.y, s.width, s.height, s.refresh_rate, 1,
        s.primary⟩ : OutputSetting)) := by
  obtain ⟨i, hi⟩ := List.getElem?_of_mem ho
  have hil : i < R.outputs.length := (List.getElem?_eq_some_iff.1 hi).1
  have hc : R.crtcs[i]? = some R.crtcs[i] := List.getElem?_eq_getElem (by omega)
  obtain ⟨cu, ou, hcu, hou, hcuid, hcuout, houid, hbranch⟩ :=
    setProfile_update_at R profile cfg hcfg hlen i o _ hi hc
  have hdrive := find_driving_update R profile cfg hcfg hlen hoid i o cu hi hcu hcuout
  cases hp : profileIndexLoop o.name none profile.outputs with
  | none =>
    rw [hp] at hbranch
    have hcrtc : (applyToOutput cfg o).current_crtc = -1 := by
      simp only [applyToOutput, hdrive, hbranch]
      simp
    rw [hcrtc]
    have hnone : (applyConfiguration R cfg).crtcs.find?
        (fun c => decide ((c.id : Int) = -1)) = none := by
      rw [List.find?_eq_none]
      intro c _ hcon
      simp only [decide_eq_true_eq] at hcon
      omega
    rw [hnone]; rfl
  | some s =>
    rw [hp] at hbranch
    obtain ⟨hmode, hx, hy, hprop⟩ := hbranch
    have hs := profileIndexLoop_mem o.name profile.outputs none s hp
    have hs' : s ∈ profile.outputs ∧ s.connector_name = o.name := by
      rcases hs with h | h
      · cases h
      · exact h
    have hne : cu.mode ≠ -1 := by
      rw [hmode]; exact hres o ho s hs'.1 hs'.2
    have hcrtc : (applyToOutput cfg o).current_crtc = ((R.crtcs[i]).id : Int) := by
      simp only [applyToOutput, hdrive, if_pos hne, hcuid]
    have hprim : (applyToOutput cfg o).primary = s.primary := by
      simp only [applyToOutput,
        find_output_update R profile cfg hcfg hlen hoid i o ou hi hou houid, hprop]
      simp [List.lookup]
    have happ : applyToCrtc cfg R.crtcs[i] =
        ⟨R.crtcs[i].id, cu.x, cu.y, R.crtcs[i].width, R.crtcs[i].height, cu.mode,
          cu.transform⟩ := by
      simp only [applyToCrtc,
        find_crtc_update R profile cfg hcfg hlen hcid i _ cu hc hcu hcuid]
    have hdec : _getDataFromMode (applyConfiguration R cfg) cu.mode =
        (s.width, s.height, s.refresh_rate) := by
      rw [hmode] at hne ⊢
      exact getDataFromModeLoop_of_getModeFromDataLoop _ _ _ _ R.modes hmid hne
    rw [hcrtc, find_applied_crtc R cfg hcid i _ hc, happ]
    simp only [Option.map_some', hdec, hx, hy, hprim]
    rfl

theorem checkProfilePossibleLoop_true (outputs : List Output) (ps : List OutputSetting)
    (h : checkProfilePossibleLoop outputs ps = true) :
    ∀ s ∈ ps, outputFoundLoop s outputs = true := by
  induction ps with
  | nil => intro s hs; cases hs
  | cons p ps ih =>
    rw [checkProfilePossibleLoop] at h
    by_cases hp : outputFoundLoop p outputs = true
    · rw [if_pos hp] at h
      intro s hs
      rcases List.mem_cons.1 hs with rfl | hmem
      · exact hp
      · exact ih h s hmem
    · rw [if_neg hp] at h; cases h

theorem filterMap_names_sublist (outputs : List Output) (f : Output → Option OutputSetting)
    (hf : ∀ o s, f o = some s → s.connector_name = o.name) :
    ((outputs.filterMap f).map OutputSetting.connector_name).Sublist
      (outputs.map Output.name) := by
  induction outputs with
  | nil => simp
  | cons o os ih =>
    rw [List.filterMap_cons]
    cases hfo : f o with
    | none => simpa using ih.cons _
    | some s =>
      simp only [List.map_cons]
      rw [hf o s hfo]
      exact ih.cons₂ _

end DisplayProfileManager2

namespace DisplayProfileManager2

/-- C12, as stated, fails: "Rotated" asks `HDMI-1` of the scenario topology for its mode
with the rotation 2; it is applicable and its mode resolves, and after its configuration
is applied exactly, `capture` reports `HDMI-1` with the rotation 1, a literal, so
`equals` is false, whatever the name and the clone flag. -/
theorem capture_after_setProfile_differs_in_rotation :
    _checkProfilePossible dockedResources rotatedProfile = true ∧
      _getModeFromData dockedResources 1920 1080 60 0 = some 71 ∧
      ∃ cfg cur, _setProfile dockedResources rotatedProfile = some cfg ∧
        _getCurrentProfile (applyConfiguration dockedResources cfg) = some cur ∧
        cur.outputs = [⟨"HDMI-1", "Acme 24", 0, 0, 1920, 1080, 60, 1, true⟩] ∧
        _compareProfiles cur ⟨rotatedProfile.name, cur.clone, rotatedProfile.outputs⟩ = false :=
  ⟨by decide, by decide!,
    ⟨7, true, [⟨50, 71, 0, 0, 0, [10], []⟩, ⟨51, -1, 0, 0, 0, [11], []⟩],
      [⟨10, [("primary", true)]⟩, ⟨11, []⟩]⟩,
    ⟨"Unnamed", false, [⟨"HDMI-1", "Acme 24", 0, 0, 1920, 1080, 60, 1, true⟩]⟩,
    by decide!, by decide!, rfl, by decide⟩

/-- C12, amended. Let the topology `R` have at least as many CRTCs as outputs and unique
connector names, output ids, CRTC ids and mode ids, and let the profile have unique
connector names, no two different output settings with the same comma-joined string, and
the rotation 1 in every output setting.  If the profile is applicable to `R` and
`find_mode` resolves every mode it requests of the output it names, then
`build_configuration` completes, `capture` of the topology with that configuration
applied exactly returns a profile whose outputs are a rearrangement of the outputs of the
profile, and `equals` of the captured profile and the profile is true, the name and the
clone flag disregarded. -/
theorem capture_after_setProfile_equals (R : Resources) (profile : Profile)
    (hlen : R.outputs.length ≤ R.crtcs.length)
    (hname : (R.outputs.map Output.name).Nodup)
    (hoid : (R.outputs.map Output.id).Nodup) (hcid : (R.crtcs.map Crtc.id).Nodup)
    (hmid : (R.modes.map Mode.id).Nodup)
    (hpname : (profile.outputs.map OutputSetting.connector_name).Nodup)
    (hstr : ∀ a ∈ profile.outputs, ∀ b ∈ profile.outputs,
      codeUnits (outputToString a) = codeUnits (outputToString b) → a = b)
    (hrot : ∀ s ∈ profile.outputs, s.rotation = 1)
    (happ : _checkProfilePossible R profile = true)
    (hres : ∀ o ∈ R.outputs, ∀ s ∈ profile.outputs, s.connector_name = o.name →
      getModeFromDataLoop o.modes s.width s.height s.refresh_rate R.modes ≠ -1) :
    ∃ cfg cur, _setProfile R profile = some cfg ∧
      _getCurrentProfile (applyConfiguration R cfg) = some cur ∧
      cur.outputs.Perm profile.outputs ∧
      _compareProfiles cur ⟨profile.name, cur.clone, profile.outputs⟩ = true := by
  obtain ⟨cfg, hcfg, -⟩ := setProfile_of_enough_crtcs R profile hlen
  -- the settings of the profile, in the order of the outputs that they name
  have hfound : ∀ s ∈ profile.outputs, ∃ o ∈ R.outputs,
      o.name = s.connector_name ∧ o.display_name = s.display_name := fun s hs =>
    (outputFoundLoop_iff s R.outputs hname).1
      (checkProfilePossibleLoop_true R.outputs profile.outputs happ s hs)
  have hidx : ∀ (o : Output) (s : OutputSetting),
      profileIndexLoop o.name none profile.outputs = some s →
        s ∈ profile.outputs ∧ s.connector_name = o.name := by
    intro o s h
    rcases profileIndexLoop_mem o.name profile.outputs none s h with h1 | h1
    · cases h1
    · exact h1
  have hcap : ∀ o ∈ R.outputs,
      (profileIndexLoop o.name none profile.outputs).map (fun s =>
        (⟨o.name, o.display_name, s.x, s.y, s.width, s.height, s.refresh_rate, 1,
          s.primary⟩ : OutputSetting)) = profileIndexLoop o.name none profile.outputs := by
    intro o ho
    cases hp : profileIndexLoop o.name none profile.outputs with
    | none => rfl
    | some s =>
      obtain ⟨hs, hsn⟩ := hidx o s hp
      obtain ⟨o', ho', hn', hd'⟩ := hfound s hs
      have hoo : o' = o :=
        List.inj_on_of_nodup_map hname ho' ho (by rw [hn', hsn])
      subst hoo
      have hr := hrot s hs
      cases s
      simp only [Option.map_some', Option.some.injEq, OutputSetting.mk.injEq]
      simp only at hn' hd' hr
      simp [hn', hd', hr]
  have hcur : _getCurrentProfile (applyConfiguration R cfg) =
      some ⟨"Unnamed", false,
        R.outputs.filterMap (fun o => profileIndexLoop o.name none profile.outputs)⟩ := by
    rw [_getCurrentProfile, getCurrentProfileLoop_eq]
    simp only [Option.map_some', Option.some.injEq, Profile.mk.injEq, true_and]
    show ((R.outputs.map (applyToOutput cfg)).filterMap _) = _
    rw [List.filterMap_map]
    apply List.filterMap_congr
    intro o ho
    exact (captured_after_apply R profile cfg hcfg hlen hoid hcid hmid hres o ho).trans
      (hcap o ho)
  have hnd : (R.outputs.filterMap
      (fun o => profileIndexLoop o.name none profile.outputs)).Nodup :=
    List.Nodup.of_map _ ((filterMap_names_sublist R.outputs _
      (fun o s h => (hidx o s h).2)).nodup hname)
  have hperm : (R.outputs.filterMap
      (fun o => profileIndexLoop o.name none profile.outputs)).Perm profile.outputs := by
    rw [List.perm_ext_iff_of_nodup hnd (List.Nodup.of_map _ hpname)]
    intro s
    rw [List.mem_filterMap]
    constructor
    · rintro ⟨o, -, h⟩; exact (hidx o s h).1
    · intro hs
      obtain ⟨o, ho, hn, -⟩ := hfound s hs
      exact ⟨o, ho, profileIndexLoop_of_nodup o.name profile.outputs s hpname hs hn.symm⟩
  refine ⟨cfg, _, hcfg, hcur, hperm, ?_⟩
  exact compareProfiles_of_perm _ _ rfl hperm (fun a ha b hb h =>
    hstr a (hperm.subset ha) b (hperm.subset hb) h)

/-- In the scenario topology "Docked", whose one output has the rotation 1, comes back
from the capture after its configuration is applied. -/
theorem capture_after_setProfile_equals_witness :
    (dockedResources.outputs.length ≤ dockedResources.crtcs.length ∧
      (dockedResources.outputs.map Output.name).Nodup ∧
      (dockedResources.outputs.map Output.id).Nodup ∧
      (dockedResources.crtcs.map Crtc.id).Nodup ∧
      (dockedResources.modes.map Mode.id).Nodup ∧
      (dockedProfile.outputs.map OutputSetting.connector_name).Nodup ∧
      (∀ s ∈ dockedProfile.outputs, s.rotation = 1) ∧
      _checkProfilePossible dockedResources dockedProfile = true) ∧
    ∃ cfg cur, _setProfile dockedResources dockedProfile = some cfg ∧
      _getCurrentProfile (applyConfiguration dockedResources cfg) = some cur ∧
      cur.outputs.Perm dockedProfile.outputs ∧
      _compareProfiles cur ⟨"Docked", cur.clone, dockedProfile.outputs⟩ = true :=
  ⟨⟨by decide, by decide, by decide, by decide, by decide, by decide, by decide, by decide⟩,
    capture_after_setProfile_equals dockedResources dockedProfile (by decide) (by decide)
      (by decide) (by decide) (by decide) (by decide) (by decide) (by decide) (by decide)
      (by decide!)⟩

end DisplayProfileManager2
